import Mathlib

/-!
Verification of the Substack-analysis text pipeline.

The definitions below are a shallow embedding of the TypeScript source
of this repository: `src/lib/text-cleaner.ts` (content normalizer),
the trigger / language-pattern extractors of `src/lib/neuropsych-analyzer.ts`
and `src/scripts/analyze-posts.ts`, the report assembler, and the
JSON persistence and API route logic.  Text is modelled as `List Char`,
with `String` wrappers at the public boundaries.  JavaScript regular
expressions are modelled by hand-written scanners that reproduce the
observable replace/match semantics of each concrete pattern in the source.
-/

set_option maxHeartbeats 1000000

/-! ## Character utilities (ASCII models of the JS semantics) -/

/-- ASCII lower-casing, mirroring how the `i` regex flag and
`String.prototype.toLowerCase` act on the ASCII range. -/
def myToLower (c : Char) : Char :=
  if 'A' ≤ c ∧ c ≤ 'Z' then Char.ofNat (c.toNat + 32) else c

/-- Whitespace class of the JS `\s` (the characters relevant here). -/
def isWs (c : Char) : Bool :=
  c = ' ' ∨ c = '\t' ∨ c = '\n' ∨ c = '\r' ∨ c = Char.ofNat 12 ∨ c = Char.ofNat 11

/-- Digit class of the JS `\d`. -/
def isDigitCh (c : Char) : Bool := '0' ≤ c ∧ c ≤ '9'

/-- Word-character test on an already lower-cased character. -/
def isWordCharL (c : Char) : Bool :=
  ('a' ≤ c ∧ c ≤ 'z') ∨ ('0' ≤ c ∧ c ≤ '9') ∨ c = '_'

/-- Word-character class of the JS `\b` / `\w` (ASCII `[A-Za-z0-9_]`);
factored through `myToLower` so that it is manifestly case-insensitive. -/
def isWordChar (c : Char) : Bool := isWordCharL (myToLower c)

/-- The apostrophe character, kept out of string literals. -/
def apos : Char := Char.ofNat 39

/-- Case-sensitive test that `p` is a prefix of `t`. -/
def litStarts (p : List Char) (t : List Char) : Bool := t.take p.length = p

/-- Case-insensitive prefix test: `p` is stored lower-case and is compared
against the lower-casing of the front of `t`. -/
def ciStarts (p : List Char) (t : List Char) : Bool :=
  (t.take p.length).map myToLower = p

/-- Case-sensitive substring occurrence. -/
def containsSeq (p : List Char) : List Char → Bool
  | [] => litStarts p []
  | c :: cs => litStarts p (c :: cs) || containsSeq p cs

/-- Case-insensitive substring occurrence (pattern stored lower-case). -/
def ciOccurs (p : List Char) : List Char → Bool
  | [] => ciStarts p []
  | c :: cs => ciStarts p (c :: cs) || ciOccurs p cs

/-- Length of the maximal prefix of `t` satisfying `p`. -/
def countWhile (p : Char → Bool) (t : List Char) : Nat := (t.takeWhile p).length

/-- Split a character list at every occurrence of `sep`; always returns at
least one (possibly empty) segment, like `String.prototype.split`. -/
def splitOnChar (sep : Char) : List Char → List (List Char)
  | [] => [[]]
  | a :: as =>
    if a = sep then [] :: splitOnChar sep as
    else
      match splitOnChar sep as with
      | [] => [[a]]
      | h :: tl => (a :: h) :: tl

/-- Join segments back with `sep` between them (inverse of `splitOnChar`). -/
def joinChar (sep : Char) : List (List Char) → List Char
  | [] => []
  | [s] => s
  | s :: rest => s ++ sep :: joinChar sep rest

/-- Replace each maximal run of `p`-characters by the single character
`sep` (helper for modelling `split(/X+/)` and `replace(/X+/g, sep)`). -/
def compressRunsAux (p : Char → Bool) (sep : Char) : Bool → List Char → List Char
  | _, [] => []
  | inRun, c :: cs =>
    if p c then
      if inRun then compressRunsAux p sep true cs
      else sep :: compressRunsAux p sep true cs
    else c :: compressRunsAux p sep false cs

/-- JS `text.split(/…+/)` where the character class is `p` and `sep` is a
canonical member of the class: fields between maximal runs of `p`-characters,
with empty leading/trailing fields exactly as in JS. -/
def jsSplitRuns (p : Char → Bool) (sep : Char) (t : List Char) : List (List Char) :=
  splitOnChar sep (compressRunsAux p sep false t)

/-! ## Content normalizer: `cleanSubstackContent` (src/lib/text-cleaner.ts)

Each replacement step of the source function becomes one scanner.  The
scanners that can jump forward by a match length take a fuel argument
(initialised to the text length, which bounds the number of steps since
every step consumes at least one character); at fuel `0` the remaining
input is returned unchanged. -/

/-- Step 1, `content.replace(/<[^>]*>/g, '')`: locate the closing `>` of a
tag, returning the text after it. -/
def splitAtGt : List Char → Option (List Char)
  | [] => none
  | c :: cs => if c = '>' then some cs else splitAtGt cs

/-- Step 1 scanner: removes every `<…>` tag; a `<` with no later `>` is kept. -/
def removeTagsAux : Nat → List Char → List Char
  | 0, t => t
  | _ + 1, [] => []
  | fuel + 1, c :: cs =>
    if c = '<' then
      match splitAtGt cs with
      | some rest => removeTagsAux fuel rest
      | none => c :: removeTagsAux fuel cs
    else c :: removeTagsAux fuel cs

def removeTags (t : List Char) : List Char := removeTagsAux t.length t

/-- First phrase of the alternation matching at the front of `t`
(case-insensitive, alternatives tried in source order), as in a JS
`replace(/a|b|c/gi, '')`. -/
def tryPhrases (ps : List (List Char)) (t : List Char) : Option Nat :=
  match ps with
  | [] => none
  | p :: rest => if p.length ≠ 0 ∧ ciStarts p t then some p.length else tryPhrases rest t

/-- Global case-insensitive removal of an alternation of literal phrases. -/
def removeCIAux (ps : List (List Char)) : Nat → List Char → List Char
  | 0, t => t
  | _ + 1, [] => []
  | fuel + 1, c :: cs =>
    match tryPhrases ps (c :: cs) with
    | some n => removeCIAux ps fuel ((c :: cs).drop n)
    | none => c :: removeCIAux ps fuel cs

def removeCI (ps : List (List Char)) (t : List Char) : List Char :=
  removeCIAux ps t.length t

/-- The `replace(/^.*?Newsletter by.*?\n/gm, '')`: a line that contains the
marker and is terminated by `\n` is removed together with its newline; the
final unterminated segment is always kept. -/
def joinDropMarked (marker : List Char) : List (List Char) → List Char
  | [] => []
  | [last] => last
  | s :: rest =>
    (if containsSeq marker s then [] else s ++ ['\n']) ++ joinDropMarked marker rest

def removeNLlines (t : List Char) : List Char :=
  joinDropMarked ("Newsletter by".data) (splitOnChar '\n' t)

/-- The `replace(/Marker.*?$/gm, '')` on one line: cut from the first
(case-sensitive) occurrence of the marker to the end of the line. -/
def cutFromMarker (m : List Char) : List Char → List Char
  | [] => []
  | c :: cs => if litStarts m (c :: cs) then [] else c :: cutFromMarker m cs

def removeToEol (m : List Char) (t : List Char) : List Char :=
  joinChar '\n' ((splitOnChar '\n' t).map (cutFromMarker m))

/-- The `replace(/https?:\/\/[^\s]+/g, '')`: the scheme must be followed by at
least one non-whitespace character, all of which are consumed greedily. -/
def removeUrlsAux : Nat → List Char → List Char
  | 0, t => t
  | _ + 1, [] => []
  | fuel + 1, c :: cs =>
    let t := c :: cs
    let tryScheme : Option Nat :=
      if litStarts ("http://".data) t then some 7
      else if litStarts ("https://".data) t then some 8
      else none
    match tryScheme with
    | some n =>
      let k := countWhile (fun d => !isWs d) (t.drop n)
      if k = 0 then c :: removeUrlsAux fuel cs
      else removeUrlsAux fuel (t.drop (n + k))
    | none => c :: removeUrlsAux fuel cs

def removeUrls (t : List Char) : List Char := removeUrlsAux t.length t

/-- The newline-collapse step of line 19: runs of three or more newlines
collapse to exactly two; shorter runs are untouched. -/
def collapseNlAux : Nat → List Char → List Char
  | 0, t => t
  | _ + 1, [] => []
  | fuel + 1, c :: cs =>
    if c = '\n' then
      let k := countWhile (fun d => d == '\n') cs
      if 3 ≤ k + 1 then '\n' :: '\n' :: collapseNlAux fuel (cs.drop k)
      else c :: collapseNlAux fuel cs
    else c :: collapseNlAux fuel cs

def collapseNl (t : List Char) : List Char := collapseNlAux t.length t

/-- The `replace(/\s{2,}/g, ' ')`: runs of two or more whitespace characters
collapse to a single space; a lone whitespace character is untouched. -/
def collapseWsAux : Nat → List Char → List Char
  | 0, t => t
  | _ + 1, [] => []
  | fuel + 1, c :: cs =>
    if isWs c then
      let k := countWhile isWs cs
      if 2 ≤ k + 1 then ' ' :: collapseWsAux fuel (cs.drop k)
      else c :: collapseWsAux fuel cs
    else c :: collapseWsAux fuel cs

def collapseWsRuns (t : List Char) : List Char := collapseWsAux t.length t

/-- The `String.prototype.trim`. -/
def trimWs (t : List Char) : List Char :=
  ((t.dropWhile isWs).reverse.dropWhile isWs).reverse

/-- The boilerplate alternation of line 6 of the source. -/
def boilerPhrases : List (List Char) :=
  ["subscribe now".data, "view in browser".data, "share this post".data,
   "leave a comment".data]

/-- Line 23: the call-to-action alternation. -/
def ctaPhrases : List (List Char) :=
  ["sign up now".data, "start your free trial".data, "upgrade to paid".data]

/-- Line 24: the second call-to-action alternation. -/
def shareLikePhrases : List (List Char) :=
  ["share".data, "comment".data, "like".data]

/-- The `cleanSubstackContent` of `src/lib/text-cleaner.ts`, steps in source
order. -/
def cleanChars (t : List Char) : List Char :=
  trimWs (removeCI shareLikePhrases (removeCI ctaPhrases (collapseWsRuns
    (collapseNl (removeUrls (removeToEol ("Unsubscribe".data)
      (removeToEol ("Subscribe to".data) (removeNLlines
        (removeCI ["this is a subscriber-only post".data]
          (removeCI ["paid subscribers only".data]
            (removeCI boilerPhrases (removeTags t))))))))))))

def cleanSubstackContent (s : String) : String := String.mk (cleanChars s.data)

/-! ## Normal-form conditions under which each cleaning step is the identity -/

/-- Head of the list is not whitespace (or the list is empty). -/
def headNotWs : List Char → Bool
  | [] => true
  | c :: _ => !isWs c

/-- No two adjacent whitespace characters. -/
def noDoubleWs : List Char → Bool
  | [] => true
  | [_] => true
  | a :: b :: rest => (!(isWs a && isWs b)) && noDoubleWs (b :: rest)

theorem all_cons_split {α : Type} {p : α → Bool} {a : α} {l : List α}
    (h : (a :: l).all p = true) : p a = true ∧ l.all p = true := by
  simpa [List.all_cons, Bool.and_eq_true] using h

theorem removeTagsAux_id (fuel : Nat) (t : List Char)
    (h : t.all (fun c => c != '<') = true) : removeTagsAux fuel t = t := by
  induction t generalizing fuel with
  | nil => cases fuel <;> rfl
  | cons c cs ih =>
    cases fuel with
    | zero => rfl
    | succ fuel =>
      obtain ⟨h1, h2⟩ := all_cons_split h
      have hc : ¬(c = '<') := by simpa using h1
      simp only [removeTagsAux, if_neg hc]
      rw [ih fuel h2]

theorem removeTags_id (t : List Char)
    (h : t.all (fun c => c != '<') = true) : removeTags t = t :=
  removeTagsAux_id t.length t h

theorem ciStarts_false_of_ciOccurs_false {p t : List Char}
    (h : ciOccurs p t = false) : ciStarts p t = false := by
  cases t with
  | nil => simpa [ciOccurs] using h
  | cons c cs => simp [ciOccurs, Bool.or_eq_false_iff] at h; exact h.1

theorem ciOccurs_tail_false {p : List Char} {c : Char} {cs : List Char}
    (h : ciOccurs p (c :: cs) = false) : ciOccurs p cs = false := by
  simp [ciOccurs, Bool.or_eq_false_iff] at h; exact h.2

theorem tryPhrases_none {ps : List (List Char)} {t : List Char}
    (h : ∀ p ∈ ps, ciOccurs p t = false) : tryPhrases ps t = none := by
  induction ps with
  | nil => rfl
  | cons p rest ih =>
    have hp : ciStarts p t = false := ciStarts_false_of_ciOccurs_false (h p (by simp))
    unfold tryPhrases
    rw [if_neg (by simp [hp])]
    exact ih fun q hq => h q (List.mem_cons_of_mem _ hq)

theorem removeCIAux_id (ps : List (List Char)) (fuel : Nat) (t : List Char)
    (h : ∀ p ∈ ps, ciOccurs p t = false) : removeCIAux ps fuel t = t := by
  induction t generalizing fuel with
  | nil => cases fuel <;> rfl
  | cons c cs ih =>
    cases fuel with
    | zero => rfl
    | succ fuel =>
      simp only [removeCIAux, tryPhrases_none h]
      rw [ih fuel (fun p hp => ciOccurs_tail_false (h p hp))]

theorem removeCI_id (ps : List (List Char)) (t : List Char)
    (h : ∀ p ∈ ps, ciOccurs p t = false) : removeCI ps t = t :=
  removeCIAux_id ps t.length t h

theorem splitOnChar_ne_nil (c : Char) (t : List Char) : splitOnChar c t ≠ [] := by
  cases t with
  | nil => simp [splitOnChar]
  | cons a as =>
    simp only [splitOnChar]
    split
    · simp
    · split <;> simp

theorem joinChar_splitOnChar (c : Char) (t : List Char) :
    joinChar c (splitOnChar c t) = t := by
  induction t with
  | nil => rfl
  | cons a as ih =>
    simp only [splitOnChar]
    split
    · rename_i hac
      subst hac
      cases hS : splitOnChar a as with
      | nil => exact absurd hS (splitOnChar_ne_nil a as)
      | cons h tl =>
        rw [hS] at ih
        cases tl with
        | nil => simpa [joinChar] using congrArg (a :: ·) ih
        | cons h2 tl2 => simpa [joinChar] using congrArg (a :: ·) ih
    · cases hS : splitOnChar c as with
      | nil => exact absurd hS (splitOnChar_ne_nil c as)
      | cons h tl =>
        rw [hS] at ih
        cases tl with
        | nil => simpa [joinChar] using congrArg (a :: ·) ih
        | cons h2 tl2 => simpa [joinChar] using congrArg (a :: ·) ih

theorem joinDropMarked_eq_joinChar (marker : List Char) (segs : List (List Char))
    (h : segs.all (fun s => !containsSeq marker s) = true) :
    joinDropMarked marker segs = joinChar '\n' segs := by
  induction segs with
  | nil => rfl
  | cons s rest ih =>
    obtain ⟨h1, h2⟩ := all_cons_split h
    have hs : containsSeq marker s = false := by simpa using h1
    cases rest with
    | nil => rfl
    | cons s2 rest2 =>
      simp only [joinDropMarked, hs, Bool.false_eq_true, if_neg, not_false_eq_true,
        joinChar]
      rw [ih h2]
      simp [joinChar]

theorem removeNLlines_id (t : List Char)
    (h : (splitOnChar '\n' t).all
      (fun s => !containsSeq ("Newsletter by".data) s) = true) :
    removeNLlines t = t := by
  unfold removeNLlines
  rw [joinDropMarked_eq_joinChar _ _ h, joinChar_splitOnChar]

theorem litStarts_false_of_containsSeq_false {p t : List Char}
    (h : containsSeq p t = false) : litStarts p t = false := by
  cases t with
  | nil => simpa [containsSeq] using h
  | cons c cs => simp [containsSeq, Bool.or_eq_false_iff] at h; exact h.1

theorem containsSeq_tail_false {p : List Char} {c : Char} {cs : List Char}
    (h : containsSeq p (c :: cs) = false) : containsSeq p cs = false := by
  simp [containsSeq, Bool.or_eq_false_iff] at h; exact h.2

theorem cutFromMarker_id (m : List Char) (s : List Char)
    (h : containsSeq m s = false) : cutFromMarker m s = s := by
  induction s with
  | nil => rfl
  | cons c cs ih =>
    have hl : litStarts m (c :: cs) = false := litStarts_false_of_containsSeq_false h
    simp only [cutFromMarker, hl, Bool.false_eq_true, if_neg, not_false_eq_true]
    rw [ih (containsSeq_tail_false h)]

theorem map_cutFromMarker_id (m : List Char) (segs : List (List Char))
    (h : segs.all (fun s => !containsSeq m s) = true) :
    segs.map (cutFromMarker m) = segs := by
  induction segs with
  | nil => rfl
  | cons s rest ih =>
    obtain ⟨h1, h2⟩ := all_cons_split h
    have hs : containsSeq m s = false := by simpa using h1
    simp only [List.map_cons, cutFromMarker_id m s hs]
    rw [ih h2]

theorem removeToEol_id (m : List Char) (t : List Char)
    (h : (splitOnChar '\n' t).all (fun s => !containsSeq m s) = true) :
    removeToEol m t = t := by
  unfold removeToEol
  rw [map_cutFromMarker_id m _ h, joinChar_splitOnChar]

theorem removeUrlsAux_id (fuel : Nat) (t : List Char)
    (h7 : containsSeq ("http://".data) t = false)
    (h8 : containsSeq ("https://".data) t = false) :
    removeUrlsAux fuel t = t := by
  induction t generalizing fuel with
  | nil => cases fuel <;> rfl
  | cons c cs ih =>
    cases fuel with
    | zero => rfl
    | succ fuel =>
      have l7 : litStarts ("http://".data) (c :: cs) = false :=
        litStarts_false_of_containsSeq_false h7
      have l8 : litStarts ("https://".data) (c :: cs) = false :=
        litStarts_false_of_containsSeq_false h8
      simp only [removeUrlsAux, l7, l8, Bool.false_eq_true, if_neg, not_false_eq_true]
      rw [ih fuel (containsSeq_tail_false h7) (containsSeq_tail_false h8)]

theorem removeUrls_id (t : List Char)
    (h7 : containsSeq ("http://".data) t = false)
    (h8 : containsSeq ("https://".data) t = false) :
    removeUrls t = t :=
  removeUrlsAux_id t.length t h7 h8

theorem noDoubleWs_tail {a : Char} {l : List Char}
    (h : noDoubleWs (a :: l) = true) : noDoubleWs l = true := by
  cases l with
  | nil => rfl
  | cons b rest => simp [noDoubleWs, Bool.and_eq_true] at h; exact h.2

theorem countWhile_eq_zero_of_noDoubleWs {c : Char} {cs : List Char}
    (hws : isWs c = true) (h : noDoubleWs (c :: cs) = true)
    (p : Char → Bool) (hp : ∀ d, p d = true → isWs d = true) :
    countWhile p cs = 0 := by
  cases cs with
  | nil => rfl
  | cons b rest =>
    simp only [noDoubleWs, Bool.and_eq_true, Bool.not_eq_true'] at h
    have hb : isWs b = false := by
      rcases h with ⟨h1, _⟩
      cases hbv : isWs b
      · rfl
      · rw [hws, hbv] at h1; simp at h1
    have hpb : p b = false := by
      cases hpv : p b
      · rfl
      · rw [hp b hpv] at hb; simp at hb
    simp [countWhile, List.takeWhile, hpb]

theorem collapseNlAux_id (fuel : Nat) (t : List Char)
    (h : noDoubleWs t = true) : collapseNlAux fuel t = t := by
  induction t generalizing fuel with
  | nil => cases fuel <;> rfl
  | cons c cs ih =>
    cases fuel with
    | zero => rfl
    | succ fuel =>
      by_cases hc : c = '\n'
      · subst hc
        have hz : countWhile (fun d => d == '\n') cs = 0 :=
          countWhile_eq_zero_of_noDoubleWs (by simp [isWs]) h
            (fun d => d == '\n') (fun d hd => by simp at hd; simp [hd, isWs])
        simp [collapseNlAux, hz, ih fuel (noDoubleWs_tail h)]
      · simp only [collapseNlAux, if_neg hc]
        rw [ih fuel (noDoubleWs_tail h)]

theorem collapseNl_id (t : List Char) (h : noDoubleWs t = true) :
    collapseNl t = t :=
  collapseNlAux_id t.length t h

theorem collapseWsAux_id (fuel : Nat) (t : List Char)
    (h : noDoubleWs t = true) : collapseWsAux fuel t = t := by
  induction t generalizing fuel with
  | nil => cases fuel <;> rfl
  | cons c cs ih =>
    cases fuel with
    | zero => rfl
    | succ fuel =>
      by_cases hc : isWs c = true
      · have hz : countWhile isWs cs = 0 :=
          countWhile_eq_zero_of_noDoubleWs hc h isWs (fun _ hd => hd)
        simp [collapseWsAux, hc, hz, ih fuel (noDoubleWs_tail h)]
      · simp only [collapseWsAux, if_neg hc]
        rw [ih fuel (noDoubleWs_tail h)]

theorem collapseWsRuns_id (t : List Char) (h : noDoubleWs t = true) :
    collapseWsRuns t = t :=
  collapseWsAux_id t.length t h

theorem dropWhile_id_of_headNotWs {t : List Char} (h : headNotWs t = true) :
    t.dropWhile isWs = t := by
  cases t with
  | nil => rfl
  | cons c cs =>
    have : isWs c = false := by simpa [headNotWs] using h
    simp [List.dropWhile, this]

theorem trimWs_id (t : List Char) (h1 : headNotWs t = true)
    (h2 : headNotWs t.reverse = true) : trimWs t = t := by
  unfold trimWs
  rw [dropWhile_id_of_headNotWs h1, dropWhile_id_of_headNotWs h2,
    List.reverse_reverse]

/-- All conditions under which every step of `cleanChars` fixes `t`:
no tag opener, no case-insensitive occurrence of any removable phrase, no
line containing a header/footer marker, no URL scheme, no run of two or
more whitespace characters, and no leading or trailing whitespace. -/
def cleanNormal (t : List Char) : Bool :=
  t.all (fun c => c != '<') &&
  boilerPhrases.all (fun p => !ciOccurs p t) &&
  !ciOccurs ("paid subscribers only".data) t &&
  !ciOccurs ("this is a subscriber-only post".data) t &&
  ctaPhrases.all (fun p => !ciOccurs p t) &&
  shareLikePhrases.all (fun p => !ciOccurs p t) &&
  (splitOnChar '\n' t).all (fun s => !containsSeq ("Newsletter by".data) s) &&
  (splitOnChar '\n' t).all (fun s => !containsSeq ("Subscribe to".data) s) &&
  (splitOnChar '\n' t).all (fun s => !containsSeq ("Unsubscribe".data) s) &&
  !containsSeq ("http://".data) t &&
  !containsSeq ("https://".data) t &&
  noDoubleWs t && headNotWs t && headNotWs t.reverse

theorem ciOccurs_false_of_all {ps : List (List Char)} {t : List Char}
    (h : ps.all (fun p => !ciOccurs p t) = true) :
    ∀ p ∈ ps, ciOccurs p t = false := by
  intro p hp
  have := (List.all_eq_true.mp h) p hp
  simpa using this

/-- The `removeCI` with a single phrase is the identity when that phrase does
not occur. -/
theorem removeCI_singleton_id (q : List Char) (t : List Char)
    (h : ciOccurs q t = false) : removeCI [q] t = t :=
  removeCI_id [q] t (fun p hp => by
    have hpq : p = q := by simpa using hp
    rw [hpq]; exact h)

/-- On a `cleanNormal` text, the whole pipeline is the identity. -/
theorem cleanChars_fixed (t : List Char) (h : cleanNormal t = true) :
    cleanChars t = t := by
  unfold cleanNormal at h
  simp only [Bool.and_eq_true] at h
  obtain ⟨⟨⟨⟨⟨⟨⟨⟨⟨⟨⟨⟨⟨hTag, hB⟩, hP1⟩, hP2⟩, hCta⟩, hShl⟩, hNl⟩, hSub⟩, hUns⟩,
    h7⟩, h8⟩, hDW⟩, hH⟩, hR⟩ := h
  unfold cleanChars
  rw [removeTags_id t hTag]
  rw [removeCI_id _ t (ciOccurs_false_of_all hB)]
  rw [removeCI_singleton_id _ t (by simpa using hP1)]
  rw [removeCI_singleton_id _ t (by simpa using hP2)]
  rw [removeNLlines_id t hNl]
  rw [removeToEol_id _ t hSub]
  rw [removeToEol_id _ t hUns]
  rw [removeUrls_id t (by simpa using h7) (by simpa using h8)]
  rw [collapseNl_id t hDW]
  rw [collapseWsRuns_id t hDW]
  rw [removeCI_id _ t (ciOccurs_false_of_all hCta)]
  rw [removeCI_id _ t (ciOccurs_false_of_all hShl)]
  exact trimWs_id t hH hR

/-! ## Claim C1: normalizer idempotence -/

/-- Claim C1, counterexample: `cleanSubstackContent` is not idempotent.
Removing the CTA word `Share` from `ShShareare` splices together a new
occurrence of `Share`, so the first pass returns `Share` and the second
pass removes it, giving the empty string. -/
theorem c1_cleaner_not_idempotent :
    cleanSubstackContent (cleanSubstackContent "ShShareare") ≠
      cleanSubstackContent "ShShareare" := by decide

/-- Claim C1 (amended): applying `cleanSubstackContent` twice agrees with
applying it once on every input whose once-cleaned text still contains
none of the removable patterns (`cleanNormal`): no `<`, no removable
phrase, no header/footer marker line, no URL scheme, no whitespace run,
and no leading or trailing whitespace.  Without that condition idempotence
fails (see the counterexample). -/
theorem c1_cleaner_idempotent_on_normal (s : String)
    (h : cleanNormal (cleanSubstackContent s).data = true) :
    cleanSubstackContent (cleanSubstackContent s) = cleanSubstackContent s := by
  have hfix : cleanChars (cleanSubstackContent s).data =
      (cleanSubstackContent s).data := cleanChars_fixed _ h
  show String.mk (cleanChars (cleanSubstackContent s).data) = cleanSubstackContent s
  rw [hfix]

/-- Concrete instance of the amended C1 theorem. -/
theorem c1_cleaner_idempotent_sample :
    cleanNormal (cleanSubstackContent "hello world").data = true ∧
      cleanSubstackContent (cleanSubstackContent "hello world") =
        cleanSubstackContent "hello world" :=
  ⟨by decide, c1_cleaner_idempotent_on_normal "hello world" (by decide)⟩

/-! ## Generic match machinery for the trigger patterns -/

/-- Global matching of a pattern: `tryAt` reports the length of the match
at the front of a suffix, if any; matches are collected left to right and
scanning resumes after each match, as in JS `String.prototype.match` with
the `g` flag. -/
def jsMatchAllAux (tryAt : List Char → Option Nat) : Nat → List Char → List (List Char)
  | 0, _ => []
  | _ + 1, [] => []
  | fuel + 1, c :: cs =>
    match tryAt (c :: cs) with
    | some n => (c :: cs).take n :: jsMatchAllAux tryAt fuel ((c :: cs).drop n)
    | none => jsMatchAllAux tryAt fuel cs

def jsMatches (tryAt : List Char → Option Nat) (t : List Char) : List (List Char) :=
  jsMatchAllAux tryAt t.length t

/-- Variant for `\b`-anchored patterns whose every alternative begins with
a word character: the scan tracks whether the previous character was a word
character; a match is only attempted at a word boundary. -/
def jsMatchAllBAux (tryAt : List Char → Option Nat) :
    Nat → Bool → List Char → List (List Char)
  | 0, _, _ => []
  | _ + 1, _, [] => []
  | fuel + 1, prevW, c :: cs =>
    match (if prevW then none else tryAt (c :: cs)) with
    | some n =>
      let m := (c :: cs).take n
      m :: jsMatchAllBAux tryAt fuel
        (match m.getLast? with | some d => isWordChar d | none => prevW)
        ((c :: cs).drop n)
    | none => jsMatchAllBAux tryAt fuel (isWordChar c) cs

def jsMatchesB (tryAt : List Char → Option Nat) (t : List Char) : List (List Char) :=
  jsMatchAllBAux tryAt t.length false t

/-- A case-insensitive literal alternative. -/
def tryLit (w : List Char) (t : List Char) : Option Nat :=
  if ciStarts w t then some w.length else none

/-- Trailing `\b` after `n` consumed characters: the next character, if
any, is not a word character. -/
def boundAfter (t : List Char) (n : Nat) : Bool :=
  match (t.drop n).head? with
  | none => true
  | some c => !isWordChar c

/-- A case-insensitive literal alternative with a trailing `\b`. -/
def tryLitB (w : List Char) (t : List Char) : Option Nat :=
  if ciStarts w t && boundAfter t w.length then some w.length else none

def countDigits (t : List Char) : Nat := countWhile isDigitCh t

/-- First matching noun of an inner alternation, characters consumed. -/
def tryNounList (ns : List (List Char)) (u : List Char) : Option Nat :=
  match ns with
  | [] => none
  | n :: rest => if ciStarts n u then some n.length else tryNounList rest u

/-! ## Trigger patterns of `src/lib/neuropsych-analyzer.ts` (no `\b`) -/

/-- The FOMO alternative with an apostrophe, built explicitly. -/
def dontMiss : List Char := "don".data ++ apos :: "t miss".data

/-- The alternative `only \d+` of the FOMO pattern. -/
def tryOnlyNum (t : List Char) : Option Nat :=
  if ciStarts ("only ".data) t then
    let k := countDigits (t.drop 5)
    if k = 0 then none else some (5 + k)
  else none

/-- The FOMO alternation of line 162: limited time, the `dontMiss` phrase,
exclusive, only-number, last chance (case-insensitive, tried in order). -/
def tryFomoLib (t : List Char) : Option Nat :=
  tryLit ("limited time".data) t <|> tryLit dontMiss t <|>
  tryLit ("exclusive".data) t <|> tryOnlyNum t <|> tryLit ("last chance".data) t

/-- The alternative `\d+\s*(people|customers|users|subscribers)`. -/
def tryNumNounLib (t : List Char) : Option Nat :=
  let k := countDigits t
  if k = 0 then none
  else
    let rest := t.drop k
    let s := countWhile isWs rest
    (tryNounList ["people".data, "customers".data, "users".data,
      "subscribers".data] (rest.drop s)).map (fun n => k + s + n)

/-- The `/\d+\s*(people|customers|users|subscribers)|testimonial|success story/gi`. -/
def trySocialLib (t : List Char) : Option Nat :=
  tryNumNounLib t <|> tryLit ("testimonial".data) t <|>
  tryLit ("success story".data) t

/-- The `/expert|proven|research shows|studies indicate|years of experience/gi`. -/
def tryAuthLib (t : List Char) : Option Nat :=
  tryLit ("expert".data) t <|> tryLit ("proven".data) t <|>
  tryLit ("research shows".data) t <|> tryLit ("studies indicate".data) t <|>
  tryLit ("years of experience".data) t

/-- The `/free|bonus|gift|complimentary|no cost/gi`. -/
def tryRecipLib (t : List Char) : Option Nat :=
  tryLit ("free".data) t <|> tryLit ("bonus".data) t <|>
  tryLit ("gift".data) t <|> tryLit ("complimentary".data) t <|>
  tryLit ("no cost".data) t

def libFomoMatches (content : List Char) : List (List Char) :=
  jsMatches tryFomoLib content

def libSocialMatches (content : List Char) : List (List Char) :=
  jsMatches trySocialLib content

def libAuthMatches (content : List Char) : List (List Char) :=
  jsMatches tryAuthLib content

def libRecipMatches (content : List Char) : List (List Char) :=
  jsMatches tryRecipLib content

/-! ## Trigger patterns of `src/scripts/analyze-posts.ts` (with `\b`) -/

/-- The last FOMO alternative of the script, with an apostrophe. -/
def beforeTooLate : List Char := "before it".data ++ apos :: "s too late".data

/-- The `only \d+` with a trailing `\b`. -/
def tryOnlyNumB (t : List Char) : Option Nat :=
  if ciStarts ("only ".data) t then
    let k := countDigits (t.drop 5)
    if k = 0 then none
    else if boundAfter t (5 + k) then some (5 + k) else none
  else none

/-- FOMO pattern of the script, line 116. -/
def tryFomoS (t : List Char) : Option Nat :=
  tryLitB ("limited time".data) t <|> tryLitB dontMiss t <|>
  tryLitB ("exclusive".data) t <|> tryOnlyNumB t <|>
  tryLitB ("last chance".data) t <|> tryLitB ("closing soon".data) t <|>
  tryLitB beforeTooLate t

def socialNounsS : List (List Char) :=
  ["people".data, "customers".data, "users".data, "subscribers".data,
   "students".data, "followers".data]

/-- Whitespace then a noun, with the trailing `\b` of the group. -/
def tryNounTailS (u : List Char) : Option Nat :=
  let s := countWhile isWs u
  match tryNounList socialNounsS (u.drop s) with
  | some n => if boundAfter u (s + n) then some (s + n) else none
  | none => none

/-- The `\+?\s*(noun)\b`, trying the optional plus first as the engine does. -/
def tryPlusTailS (u : List Char) : Option Nat :=
  (match u.head? with
   | some c => if c = '+' then (tryNounTailS (u.drop 1)).map (· + 1) else none
   | none => none) <|> tryNounTailS u

/-- The digits alternative of the Social Proof pattern in the script:
digits, optional `k`, optional plus, whitespace, noun, boundary. -/
def tryNumNounS (t : List Char) : Option Nat :=
  let k := countDigits t
  if k = 0 then none
  else
    let rest := t.drop k
    ((match rest.head? with
      | some c => if myToLower c = 'k' then (tryPlusTailS (rest.drop 1)).map (· + 1)
                  else none
      | none => none) <|> tryPlusTailS rest).map (· + k)

/-- Social Proof pattern of the script, line 128. -/
def trySocialS (t : List Char) : Option Nat :=
  tryNumNounS t <|> tryLitB ("testimonial".data) t <|>
  tryLitB ("success story".data) t <|> tryLitB ("case study".data) t

/-- The alternatives with an apostrophe in the Authority pattern. -/
def iveTested : List Char := "i".data ++ apos :: "ve tested".data

def iveBuilt : List Char := "i".data ++ apos :: "ve built".data

/-- Authority pattern of the script, line 140. -/
def tryAuthS (t : List Char) : Option Nat :=
  tryLitB ("expert".data) t <|> tryLitB ("proven".data) t <|>
  tryLitB ("research shows".data) t <|> tryLitB ("studies".data) t <|>
  tryLitB ("years of experience".data) t <|> tryLitB iveTested t <|>
  tryLitB iveBuilt t <|> tryLitB ("my system".data) t

/-- Transformation Promise pattern of the script, line 152. -/
def tryTransS (t : List Char) : Option Nat :=
  tryLitB ("transform".data) t <|> tryLitB ("change your life".data) t <|>
  tryLitB ("breakthrough".data) t <|> tryLitB ("unlock".data) t <|>
  tryLitB ("discover".data) t <|> tryLitB ("master".data) t <|>
  tryLitB ("become".data) t <|> tryLitB ("achieve".data) t

def sFomoMatches (content : List Char) : List (List Char) :=
  jsMatchesB tryFomoS content

def sSocialMatches (content : List Char) : List (List Char) :=
  jsMatchesB trySocialS content

def sAuthMatches (content : List Char) : List (List Char) :=
  jsMatchesB tryAuthS content

def sTransMatches (content : List Char) : List (List Char) :=
  jsMatchesB tryTransS content

/-! ## Trigger extraction (both implementations) -/

/-- The `PsychologicalTrigger` of `src/types/index.ts`. -/
structure PsychologicalTrigger where
  type : String
  frequency : Nat
  examples : List String
  impact : String
deriving Repr, DecidableEq

/-- First-occurrence deduplication, as performed by `new Set(...)` in JS
(insertion order, first occurrence kept). -/
def firstDedupAux {α : Type} [DecidableEq α] : List α → List α → List α
  | _, [] => []
  | seen, a :: as =>
    if a ∈ seen then firstDedupAux seen as
    else a :: firstDedupAux (a :: seen) as

def firstDedup {α : Type} [DecidableEq α] (l : List α) : List α :=
  firstDedupAux [] l

/-- The `analyzePsychologicalTriggers` of `src/lib/neuropsych-analyzer.ts`
(lines 158–210): the four category blocks push a trigger when the match
count is positive; examples are the first three matches as returned (not
deduplicated). -/
def analyzePsychologicalTriggersC (content : List Char) : List PsychologicalTrigger :=
  (if (libFomoMatches content).length > 0 then
    [{ type := "FOMO (Fear of Missing Out)",
       frequency := (libFomoMatches content).length,
       examples := ((libFomoMatches content).take 3).map String.mk,
       impact := if (libFomoMatches content).length > 5 then "high" else "medium" }]
   else []) ++
  (if (libSocialMatches content).length > 0 then
    [{ type := "Social Proof",
       frequency := (libSocialMatches content).length,
       examples := ((libSocialMatches content).take 3).map String.mk,
       impact := if (libSocialMatches content).length > 3 then "high" else "medium" }]
   else []) ++
  (if (libAuthMatches content).length > 0 then
    [{ type := "Authority",
       frequency := (libAuthMatches content).length,
       examples := ((libAuthMatches content).take 3).map String.mk,
       impact := if (libAuthMatches content).length > 4 then "high" else "medium" }]
   else []) ++
  (if (libRecipMatches content).length > 0 then
    [{ type := "Reciprocity",
       frequency := (libRecipMatches content).length,
       examples := ((libRecipMatches content).take 3).map String.mk,
       impact := if (libRecipMatches content).length > 2 then "medium" else "low" }]
   else [])

def analyzePsychologicalTriggers (content : String) : List PsychologicalTrigger :=
  analyzePsychologicalTriggersC content.data

/-- The `analyzePsychologicalTriggers` of `src/scripts/analyze-posts.ts`
(lines 111–164), acting on the joined content: examples here are
deduplicated via `new Set` before taking the first three. -/
def analyzePsychologicalTriggersSC (content : List Char) : List PsychologicalTrigger :=
  (if (sFomoMatches content).length > 0 then
    [{ type := "FOMO (Fear of Missing Out)",
       frequency := (sFomoMatches content).length,
       examples := ((firstDedup (sFomoMatches content)).take 3).map String.mk,
       impact := if (sFomoMatches content).length > 5 then "high" else "medium" }]
   else []) ++
  (if (sSocialMatches content).length > 0 then
    [{ type := "Social Proof",
       frequency := (sSocialMatches content).length,
       examples := ((firstDedup (sSocialMatches content)).take 3).map String.mk,
       impact := if (sSocialMatches content).length > 3 then "high" else "medium" }]
   else []) ++
  (if (sAuthMatches content).length > 0 then
    [{ type := "Authority Building",
       frequency := (sAuthMatches content).length,
       examples := ((firstDedup (sAuthMatches content)).take 3).map String.mk,
       impact := if (sAuthMatches content).length > 4 then "high" else "medium" }]
   else []) ++
  (if (sTransMatches content).length > 0 then
    [{ type := "Transformation Promise",
       frequency := (sTransMatches content).length,
       examples := ((firstDedup (sTransMatches content)).take 3).map String.mk,
       impact := if (sTransMatches content).length > 6 then "high" else "medium" }]
   else [])

/-! ## Lemmas about trigger lists and deduplication -/

theorem mem_ite_singleton {α : Type} {c : Prop} [Decidable c] {x t : α}
    (h : t ∈ (if c then [x] else [])) : c ∧ t = x := by
  split at h
  · simp at h; exact ⟨by assumption, h⟩
  · simp at h

theorem firstDedupAux_nodup_and_fresh {α : Type} [DecidableEq α] :
    ∀ (l seen : List α), (firstDedupAux seen l).Nodup ∧
      ∀ a ∈ firstDedupAux seen l, a ∉ seen := by
  intro l
  induction l with
  | nil => intro seen; exact ⟨List.nodup_nil, by simp [firstDedupAux]⟩
  | cons a as ih =>
    intro seen
    by_cases hmem : a ∈ seen
    · simpa [firstDedupAux, hmem] using ih seen
    · obtain ⟨hnd, hfresh⟩ := ih (a :: seen)
      refine ⟨?_, ?_⟩
      · simp only [firstDedupAux, if_neg hmem]
        refine List.nodup_cons.mpr ⟨?_, hnd⟩
        intro hin
        exact hfresh a hin (by simp)
      · intro x hx
        simp only [firstDedupAux, if_neg hmem, List.mem_cons] at hx
        rcases hx with rfl | hx
        · exact hmem
        · intro hxs
          exact hfresh x hx (by simp [hxs])

theorem firstDedup_nodup {α : Type} [DecidableEq α] (l : List α) :
    (firstDedup l).Nodup :=
  (firstDedupAux_nodup_and_fresh l []).1

/-! ## Claim C2: impact thresholds -/

/-- Claim C2, counterexample: three Reciprocity matches exceed the
threshold 2, yet the emitted impact is `medium`, not `high` — the
Reciprocity block only ever emits `medium` or `low`. -/
theorem c2_reciprocity_not_high :
    analyzePsychologicalTriggers "free free free" =
      [{ type := "Reciprocity", frequency := 3,
         examples := ["free", "free", "free"], impact := "medium" }] ∧
      2 < 3 ∧ ("medium" : String) ≠ "high" := by decide

/-- Claim C2 (amended): in the library extractor, FOMO / Social Proof /
Authority triggers have impact `high` exactly when the frequency exceeds
5 / 3 / 4 respectively and `medium` otherwise, while Reciprocity has
impact `medium` when the frequency exceeds 2 and `low` otherwise (never
`high`); in the script extractor, FOMO / Social Proof / Authority
Building / Transformation Promise have impact `high` exactly above
5 / 3 / 4 / 6 and `medium` otherwise.  In particular the text with six
FOMO matches and two Reciprocity matches yields a FOMO trigger of
frequency 6 and impact `high` and a Reciprocity trigger of frequency 2
and impact `low`. -/
theorem c2_trigger_impact_rules :
    (∀ (content : List Char), ∀ t ∈ analyzePsychologicalTriggersC content,
      (t.type = "FOMO (Fear of Missing Out)" →
        t.impact = if 5 < t.frequency then "high" else "medium") ∧
      (t.type = "Social Proof" →
        t.impact = if 3 < t.frequency then "high" else "medium") ∧
      (t.type = "Authority" →
        t.impact = if 4 < t.frequency then "high" else "medium") ∧
      (t.type = "Reciprocity" →
        t.impact = if 2 < t.frequency then "medium" else "low")) ∧
    (∀ (content : List Char), ∀ t ∈ analyzePsychologicalTriggersSC content,
      (t.type = "FOMO (Fear of Missing Out)" →
        t.impact = if 5 < t.frequency then "high" else "medium") ∧
      (t.type = "Social Proof" →
        t.impact = if 3 < t.frequency then "high" else "medium") ∧
      (t.type = "Authority Building" →
        t.impact = if 4 < t.frequency then "high" else "medium") ∧
      (t.type = "Transformation Promise" →
        t.impact = if 6 < t.frequency then "high" else "medium")) ∧
    analyzePsychologicalTriggers
        "exclusive exclusive exclusive exclusive exclusive exclusive free free" =
      [{ type := "FOMO (Fear of Missing Out)", frequency := 6,
         examples := ["exclusive", "exclusive", "exclusive"], impact := "high" },
       { type := "Reciprocity", frequency := 2,
         examples := ["free", "free"], impact := "low" }] := by
  have nAB : ("FOMO (Fear of Missing Out)" : String) ≠ "Social Proof" := by decide
  have nAC : ("FOMO (Fear of Missing Out)" : String) ≠ "Authority" := by decide
  have nAD : ("FOMO (Fear of Missing Out)" : String) ≠ "Reciprocity" := by decide
  have nAE : ("FOMO (Fear of Missing Out)" : String) ≠ "Authority Building" := by decide
  have nAF : ("FOMO (Fear of Missing Out)" : String) ≠ "Transformation Promise" := by decide
  have nBA : ("Social Proof" : String) ≠ "FOMO (Fear of Missing Out)" := by decide
  have nBC : ("Social Proof" : String) ≠ "Authority" := by decide
  have nBD : ("Social Proof" : String) ≠ "Reciprocity" := by decide
  have nBE : ("Social Proof" : String) ≠ "Authority Building" := by decide
  have nBF : ("Social Proof" : String) ≠ "Transformation Promise" := by decide
  have nCA : ("Authority" : String) ≠ "FOMO (Fear of Missing Out)" := by decide
  have nCB : ("Authority" : String) ≠ "Social Proof" := by decide
  have nCD : ("Authority" : String) ≠ "Reciprocity" := by decide
  have nDA : ("Reciprocity" : String) ≠ "FOMO (Fear of Missing Out)" := by decide
  have nDB : ("Reciprocity" : String) ≠ "Social Proof" := by decide
  have nDC : ("Reciprocity" : String) ≠ "Authority" := by decide
  have nEA : ("Authority Building" : String) ≠ "FOMO (Fear of Missing Out)" := by decide
  have nEB : ("Authority Building" : String) ≠ "Social Proof" := by decide
  have nEF : ("Authority Building" : String) ≠ "Transformation Promise" := by decide
  have nFA : ("Transformation Promise" : String) ≠ "FOMO (Fear of Missing Out)" := by decide
  have nFB : ("Transformation Promise" : String) ≠ "Social Proof" := by decide
  have nFE : ("Transformation Promise" : String) ≠ "Authority Building" := by decide
  refine ⟨?_, ?_, by decide⟩
  · intro content t ht
    unfold analyzePsychologicalTriggersC at ht
    rcases List.mem_append.mp ht with h | h4
    rcases List.mem_append.mp h with h | h3
    rcases List.mem_append.mp h with h1 | h2
    · obtain ⟨hc, rfl⟩ := mem_ite_singleton h1
      exact ⟨fun _ => rfl, fun hty => absurd hty nAB,
        fun hty => absurd hty nAC, fun hty => absurd hty nAD⟩
    · obtain ⟨hc, rfl⟩ := mem_ite_singleton h2
      exact ⟨fun hty => absurd hty nBA, fun _ => rfl,
        fun hty => absurd hty nBC, fun hty => absurd hty nBD⟩
    · obtain ⟨hc, rfl⟩ := mem_ite_singleton h3
      exact ⟨fun hty => absurd hty nCA, fun hty => absurd hty nCB,
        fun _ => rfl, fun hty => absurd hty nCD⟩
    · obtain ⟨hc, rfl⟩ := mem_ite_singleton h4
      exact ⟨fun hty => absurd hty nDA, fun hty => absurd hty nDB,
        fun hty => absurd hty nDC, fun _ => rfl⟩
  · intro content t ht
    unfold analyzePsychologicalTriggersSC at ht
    rcases List.mem_append.mp ht with h | h4
    rcases List.mem_append.mp h with h | h3
    rcases List.mem_append.mp h with h1 | h2
    · obtain ⟨hc, rfl⟩ := mem_ite_singleton h1
      exact ⟨fun _ => rfl, fun hty => absurd hty nAB,
        fun hty => absurd hty nAE, fun hty => absurd hty nAF⟩
    · obtain ⟨hc, rfl⟩ := mem_ite_singleton h2
      exact ⟨fun hty => absurd hty nBA, fun _ => rfl,
        fun hty => absurd hty nBE, fun hty => absurd hty nBF⟩
    · obtain ⟨hc, rfl⟩ := mem_ite_singleton h3
      exact ⟨fun hty => absurd hty nEA, fun hty => absurd hty nEB,
        fun _ => rfl, fun hty => absurd hty nEF⟩
    · obtain ⟨hc, rfl⟩ := mem_ite_singleton h4
      exact ⟨fun hty => absurd hty nFA, fun hty => absurd hty nFB,
        fun hty => absurd hty nFE, fun _ => rfl⟩

/-- Concrete instance of the amended C2 theorem: the Reciprocity trigger
emitted for `free` has impact `low`. -/
theorem c2_trigger_impact_sample :
    ({ type := "Reciprocity", frequency := 1, examples := ["free"],
       impact := "low" } : PsychologicalTrigger).impact =
      if 2 < (1 : Nat) then "medium" else "low" :=
  (c2_trigger_impact_rules.1 ("free".data) _ (by decide)).2.2.2 rfl

/-! ## Claim C4: category omission -/

/-- Claim C4: a trigger category with zero matches produces no entry (shown
for the Social Proof category of both extractors), and more generally no
zero-frequency trigger is ever emitted by either extractor. -/
theorem c4_category_omission :
    ∀ (content : List Char),
      ((libSocialMatches content).length = 0 →
        ∀ t ∈ analyzePsychologicalTriggersC content, t.type ≠ "Social Proof") ∧
      ((sSocialMatches content).length = 0 →
        ∀ t ∈ analyzePsychologicalTriggersSC content, t.type ≠ "Social Proof") ∧
      (∀ t ∈ analyzePsychologicalTriggersC content, 0 < t.frequency) ∧
      (∀ t ∈ analyzePsychologicalTriggersSC content, 0 < t.frequency) := by
  have nAB : ("FOMO (Fear of Missing Out)" : String) ≠ "Social Proof" := by decide
  have nCB : ("Authority" : String) ≠ "Social Proof" := by decide
  have nDB : ("Reciprocity" : String) ≠ "Social Proof" := by decide
  have nEB : ("Authority Building" : String) ≠ "Social Proof" := by decide
  have nFB : ("Transformation Promise" : String) ≠ "Social Proof" := by decide
  intro content
  refine ⟨?_, ?_, ?_, ?_⟩
  · intro hz t ht
    unfold analyzePsychologicalTriggersC at ht
    rcases List.mem_append.mp ht with h | h4
    rcases List.mem_append.mp h with h | h3
    rcases List.mem_append.mp h with h1 | h2
    · obtain ⟨hc, rfl⟩ := mem_ite_singleton h1; exact nAB
    · obtain ⟨hc, rfl⟩ := mem_ite_singleton h2; omega
    · obtain ⟨hc, rfl⟩ := mem_ite_singleton h3; exact nCB
    · obtain ⟨hc, rfl⟩ := mem_ite_singleton h4; exact nDB
  · intro hz t ht
    unfold analyzePsychologicalTriggersSC at ht
    rcases List.mem_append.mp ht with h | h4
    rcases List.mem_append.mp h with h | h3
    rcases List.mem_append.mp h with h1 | h2
    · obtain ⟨hc, rfl⟩ := mem_ite_singleton h1; exact nAB
    · obtain ⟨hc, rfl⟩ := mem_ite_singleton h2; omega
    · obtain ⟨hc, rfl⟩ := mem_ite_singleton h3; exact nEB
    · obtain ⟨hc, rfl⟩ := mem_ite_singleton h4; exact nFB
  · intro t ht
    unfold analyzePsychologicalTriggersC at ht
    rcases List.mem_append.mp ht with h | h4
    rcases List.mem_append.mp h with h | h3
    rcases List.mem_append.mp h with h1 | h2
    · obtain ⟨hc, rfl⟩ := mem_ite_singleton h1; exact hc
    · obtain ⟨hc, rfl⟩ := mem_ite_singleton h2; exact hc
    · obtain ⟨hc, rfl⟩ := mem_ite_singleton h3; exact hc
    · obtain ⟨hc, rfl⟩ := mem_ite_singleton h4; exact hc
  · intro t ht
    unfold analyzePsychologicalTriggersSC at ht
    rcases List.mem_append.mp ht with h | h4
    rcases List.mem_append.mp h with h | h3
    rcases List.mem_append.mp h with h1 | h2
    · obtain ⟨hc, rfl⟩ := mem_ite_singleton h1; exact hc
    · obtain ⟨hc, rfl⟩ := mem_ite_singleton h2; exact hc
    · obtain ⟨hc, rfl⟩ := mem_ite_singleton h3; exact hc
    · obtain ⟨hc, rfl⟩ := mem_ite_singleton h4; exact hc

/-- The Reciprocity trigger the library extractor produces for `free`. -/
def freeTrigger : PsychologicalTrigger :=
  { type := "Reciprocity", frequency := 1, examples := ["free"], impact := "low" }

/-- Concrete instance of C4: `free` has no Social Proof matches, and the
Reciprocity trigger it produces is not a Social Proof entry and has
positive frequency. -/
theorem c4_category_omission_sample :
    freeTrigger.type ≠ "Social Proof" ∧ 0 < freeTrigger.frequency :=
  ⟨(c4_category_omission ("free".data)).1 (by decide) _ (by decide),
   (c4_category_omission ("free".data)).2.2.1 _ (by decide)⟩

/-! ## Claim C5: trigger examples -/

/-- Claim C5, counterexample: the library extractor does not deduplicate
examples — `bonus bonus` yields a Reciprocity trigger whose examples list
is `[bonus, bonus]`, which is not pairwise distinct. -/
theorem c5_examples_not_distinct :
    analyzePsychologicalTriggers "bonus bonus" =
      [{ type := "Reciprocity", frequency := 2,
         examples := ["bonus", "bonus"], impact := "low" }] ∧
      ¬ (["bonus", "bonus"] : List String).Nodup := by
  constructor
  · decide
  · decide

/-- Claim C5 (amended): every emitted trigger carries at most three
example snippets; in the script extractor the examples are additionally
pairwise distinct (first occurrences of the matched substrings), while the
library extractor takes the first three raw matches, so duplicates can
repeat there. -/
theorem c5_examples_bounds :
    ∀ (content : List Char),
      (∀ t ∈ analyzePsychologicalTriggersC content, t.examples.length ≤ 3) ∧
      (∀ t ∈ analyzePsychologicalTriggersSC content,
        t.examples.length ≤ 3 ∧ t.examples.Nodup) := by
  intro content
  constructor
  · intro t ht
    unfold analyzePsychologicalTriggersC at ht
    rcases List.mem_append.mp ht with h | h4
    rcases List.mem_append.mp h with h | h3
    rcases List.mem_append.mp h with h1 | h2
    all_goals
      first
      | (obtain ⟨hc, rfl⟩ := mem_ite_singleton h1
         simp)
      | (obtain ⟨hc, rfl⟩ := mem_ite_singleton h2
         simp)
      | (obtain ⟨hc, rfl⟩ := mem_ite_singleton h3
         simp)
      | (obtain ⟨hc, rfl⟩ := mem_ite_singleton h4
         simp)
  · intro t ht
    have key : ∀ ms : List (List Char),
        (((firstDedup ms).take 3).map String.mk).length ≤ 3 ∧
        (((firstDedup ms).take 3).map String.mk).Nodup := by
      intro ms
      constructor
      · simp
      · exact ((firstDedup_nodup ms).sublist (List.take_sublist 3 _)).map
          (fun a b h => congrArg String.data h)
    unfold analyzePsychologicalTriggersSC at ht
    rcases List.mem_append.mp ht with h | h4
    rcases List.mem_append.mp h with h | h3
    rcases List.mem_append.mp h with h1 | h2
    · obtain ⟨hc, rfl⟩ := mem_ite_singleton h1; exact key _
    · obtain ⟨hc, rfl⟩ := mem_ite_singleton h2; exact key _
    · obtain ⟨hc, rfl⟩ := mem_ite_singleton h3; exact key _
    · obtain ⟨hc, rfl⟩ := mem_ite_singleton h4; exact key _

/-- The Transformation Promise trigger the script extractor produces for
`master`. -/
def masterTrigger : PsychologicalTrigger :=
  { type := "Transformation Promise", frequency := 1, examples := ["master"],
    impact := "medium" }

/-- Concrete instance of the amended C5 theorem at `master`. -/
theorem c5_examples_bounds_sample :
    masterTrigger.examples.length ≤ 3 ∧ masterTrigger.examples.Nodup :=
  (c5_examples_bounds ("master".data)).2 _ (by decide)

/-! ## Counting and sorting utilities (phrase maps, JS stable sort) -/

/-- The `Map.set(phrase, (map.get(phrase) || 0) + 1)` on an insertion-ordered
association list. -/
def insertIncr {α : Type} [DecidableEq α] : List (α × Nat) → α → List (α × Nat)
  | [], p => [(p, 1)]
  | (q, n) :: rest, p =>
    if q = p then (q, n + 1) :: rest else (q, n) :: insertIncr rest p

/-- Stable insertion for a descending sort by the second component. -/
def insDesc {α : Type} (x : α × Nat) : List (α × Nat) → List (α × Nat)
  | [] => [x]
  | y :: ys => if x.2 < y.2 then y :: insDesc x ys else x :: y :: ys

/-- Stable descending sort by count, the behaviour of
`Array.prototype.sort((a, b) => b[1] - a[1])`. -/
def sortDescBy {α : Type} : List (α × Nat) → List (α × Nat)
  | [] => []
  | x :: xs => insDesc x (sortDescBy xs)

/-- Number of occurrences of `p` in a list. -/
def countOcc {α : Type} [DecidableEq α] (p : α) : List α → Nat
  | [] => 0
  | a :: as => (if a = p then 1 else 0) + countOcc p as

/-- The `text.split(/\s+/)`. -/
def jsSplitWs (t : List Char) : List (List Char) := jsSplitRuns isWs ' ' t

/-- Sentence-delimiter class `[.!?]`. -/
def isSentC (c : Char) : Bool := c = '.' ∨ c = '!' ∨ c = '?'

/-- The `text.split(/[.!?]+/)`. -/
def jsSplitSent (t : List Char) : List (List Char) := jsSplitRuns isSentC '.' t

/-- The `words.slice(i, i + 4).join(' ').toLowerCase()`. -/
def windowPhrase (ws : List (List Char)) (i : Nat) : List Char :=
  (joinChar ' ' ((ws.drop i).take 4)).map myToLower

/-- The length filter of the phrase loop in the script (strict bounds). -/
def phraseLenOk (p : List Char) : Bool := 10 < p.length && p.length < 50

/-- The phrase-count map built by the loop
`for (let i = 0; i < words.length - 4; i++)` of `analyze-posts.ts`. -/
def phraseMapScript (ws : List (List Char)) : List (List Char × Nat) :=
  (List.range (ws.length - 4)).foldl
    (fun m i =>
      if phraseLenOk (windowPhrase ws i) then insertIncr m (windowPhrase ws i)
      else m)
    []

/-- The fixed fallback list of `analyze-posts.ts` line 98. -/
def fallbackPhrases : List (List Char) :=
  ["building systems".data, "creating value".data, "growth mindset".data,
   "consistent action".data, "leverage knowledge".data]

/-- The `commonPhrases` as computed by `analyzeLanguagePatterns` of
`src/scripts/analyze-posts.ts` (lines 67–82 and 98). -/
def commonPhrasesScript (allContent : List Char) : List (List Char) :=
  let top := ((sortDescBy (phraseMapScript (jsSplitWs allContent))).take 5).map
    Prod.fst
  if top.length > 0 then top else fallbackPhrases

/-- Modelled from the claim C6 text as stated: every sliding window of
exactly 4 consecutive words, candidate when the joined length is within
the inclusive bounds [10,50], occurrences counted, top 5 by descending
count with ties in first-seen order. -/
def specPhrasesClaim (allContent : List Char) : List (List Char) :=
  let ws := jsSplitWs allContent
  let candidates := ((List.range (ws.length - 3)).map (windowPhrase ws)).filter
    (fun p => 10 ≤ p.length && p.length ≤ 50)
  ((sortDescBy ((firstDedup candidates).map
    (fun p => (p, countOcc p candidates)))).take 5).map Prod.fst

/-- The amended C6 description: windows start at indices `0 … n − 5` (the
window at the final possible index is never formed), a window is a
candidate when its lowercased joined length is strictly between 10 and 50,
occurrences are counted, the top 5 by descending count (ties first-seen)
are returned, and a fixed fallback list is returned when no window
qualifies. -/
def specPhrasesAmended (allContent : List Char) : List (List Char) :=
  let ws := jsSplitWs allContent
  let candidates := ((List.range (ws.length - 4)).map (windowPhrase ws)).filter
    phraseLenOk
  let top := ((sortDescBy ((firstDedup candidates).map
    (fun p => (p, countOcc p candidates)))).take 5).map Prod.fst
  if top.length > 0 then top else fallbackPhrases

/-! ## Emotional word counting (C7) -/

/-- First word of the list matching case-insensitively at the front of `t`
with a trailing word boundary, as in `\b(w1|…|wn)\b` with the `i` flag. -/
def tryWordsWL : List (List Char) → List Char → Option (List Char)
  | [], _ => none
  | w :: rest, t =>
    if ciStarts w t && boundAfter t w.length then some w else tryWordsWL rest t

/-- Number of matches of `\b(w1|…|wn)\b/gi` in a text, tracking whether the
previous character was a word character (every listed word begins with a
word character, so the leading `\b` is exactly `¬prevW`). -/
def countWLAux (wl : List (List Char)) : Nat → Bool → List Char → Nat
  | 0, _, _ => 0
  | _ + 1, _, [] => 0
  | fuel + 1, prevW, c :: cs =>
    match (if prevW then none else tryWordsWL wl (c :: cs)) with
    | some w =>
      1 + countWLAux wl fuel (isWordCharL (w.getLastD 'a')) ((c :: cs).drop w.length)
    | none => countWLAux wl fuel (isWordChar c) cs

def countWordHits (wl : List (List Char)) (t : List Char) : Nat :=
  countWLAux wl t.length false t

/-- Positive list of `neuropsych-analyzer.ts` line 139. -/
def libPositiveWords : List (List Char) :=
  ["great".data, "amazing".data, "excellent".data, "fantastic".data,
   "wonderful".data, "success".data, "love".data, "happy".data]

/-- Negative list of `neuropsych-analyzer.ts` line 140. -/
def libNegativeWords : List (List Char) :=
  ["bad".data, "terrible".data, "awful".data, "hate".data, "fail".data,
   "wrong".data, "mistake".data, "problem".data]

/-- Positive list of `analyze-posts.ts` line 93. -/
def scriptPositiveWords : List (List Char) :=
  ["great".data, "amazing".data, "excellent".data, "fantastic".data,
   "wonderful".data, "success".data, "love".data, "happy".data,
   "powerful".data, "achieve".data, "win".data, "growth".data]

/-- Negative list of `analyze-posts.ts` line 94. -/
def scriptNegativeWords : List (List Char) :=
  ["bad".data, "terrible".data, "awful".data, "hate".data, "fail".data,
   "wrong".data, "mistake".data, "problem".data, "struggle".data,
   "pain".data, "lose".data]

/-- The `Math.round((num / den) * scale)` for naturals, exact. -/
def jsRoundDiv (num den : Nat) : Nat := (2 * num + den) / (2 * den)

/-! ## Language patterns (both implementations) -/

structure EmotionalTone where
  positive : Nat
  negative : Nat
  neutral : Nat
deriving Repr, DecidableEq

/-- The `LanguagePatterns` of `src/types/index.ts`. -/
structure LanguagePatterns where
  commonPhrases : List String
  vocabularyComplexity : String
  sentenceStructure : String
  rhetoricalDevices : List String
  powerWords : List String
  emotionalTone : EmotionalTone
deriving Repr, DecidableEq

/-- Case-insensitive `content.toLowerCase().includes(word)`. -/
def lowerContains (content : List Char) (w : List Char) : Bool :=
  containsSeq w (content.map myToLower)

/-- Power-word list of `neuropsych-analyzer.ts` line 133. -/
def libPowerWords : List (List Char) :=
  ["transform".data, "success".data, "growth".data, "master".data,
   "achieve".data, "powerful".data, "breakthrough".data, "revolutionary".data]

/-- Phrase map of the sentence-based `commonPhrases` of the library
(`neuropsych-analyzer.ts` lines 119–125). -/
def libPhraseMap (sents : List (List Char)) : List (List Char × Nat) :=
  sents.foldl
    (fun m s =>
      let cleaned := trimWs (s.map myToLower)
      if 10 < cleaned.length ∧ cleaned.length < 100 then insertIncr m cleaned
      else m)
    []

/-- The `analyzeLanguagePatterns` of `src/lib/neuropsych-analyzer.ts`
(lines 113–156). -/
def analyzeLanguagePatternsLibC (content : List Char) : LanguagePatterns :=
  let words := jsSplitWs content
  let sentences := jsSplitSent content
  let pos := countWordHits libPositiveWords content
  let neg := countWordHits libNegativeWords content
  let total := pos + neg + 100
  { commonPhrases :=
      (((sortDescBy (libPhraseMap sentences)).take 5).map Prod.fst).map String.mk
    vocabularyComplexity :=
      if 20 * sentences.length < words.length then "complex" else "moderate"
    sentenceStructure := "Varied with mix of short and long sentences"
    rhetoricalDevices := ["Storytelling", "Questions", "Metaphors"]
    powerWords := (libPowerWords.filter (lowerContains content)).map String.mk
    emotionalTone :=
      { positive := jsRoundDiv (100 * pos) total
        negative := jsRoundDiv (100 * neg) total
        neutral := jsRoundDiv (100 * (total - pos - neg)) total } }

/-- Power-word list of `analyze-posts.ts` lines 85–87. -/
def scriptPowerWords : List (List Char) :=
  ["transform".data, "leverage".data, "scale".data, "master".data,
   "achieve".data, "powerful".data, "breakthrough".data, "revolutionary".data,
   "system".data, "framework".data, "growth".data, "success".data,
   "focus".data, "consciousness".data, "create".data, "build".data]

/-- The `analyzeLanguagePatterns` of `src/scripts/analyze-posts.ts`
(lines 61–109), on the joined content. -/
def analyzeLanguagePatternsScriptC (allContent : List Char) : LanguagePatterns :=
  let words := jsSplitWs allContent
  let sentences := jsSplitSent allContent
  let pos := countWordHits scriptPositiveWords allContent
  let neg := countWordHits scriptNegativeWords allContent
  let totalWords := words.length
  { commonPhrases := (commonPhrasesScript allContent).map String.mk
    vocabularyComplexity :=
      if 20 * sentences.length < words.length then "complex" else "moderate"
    sentenceStructure :=
      "Varied with mix of short punchy statements and detailed explanations"
    rhetoricalDevices :=
      ["Storytelling", "Pattern Recognition", "Frameworks", "Analogies"]
    powerWords :=
      (((scriptPowerWords.filter (lowerContains allContent)).take 7).map
        String.mk)
    emotionalTone :=
      { positive := jsRoundDiv (1000 * pos) totalWords
        negative := jsRoundDiv (1000 * neg) totalWords
        neutral := jsRoundDiv (1000 * (totalWords - pos - neg)) totalWords } }

/-! ## Lemmas for the phrase-frequency refinement (C6) -/

theorem countOcc_append {α : Type} [DecidableEq α] (p : α) (l₁ l₂ : List α) :
    countOcc p (l₁ ++ l₂) = countOcc p l₁ + countOcc p l₂ := by
  induction l₁ with
  | nil => simp [countOcc]
  | cons a as ih => simp [countOcc, ih]; omega

theorem countOcc_eq_zero_of_not_mem {α : Type} [DecidableEq α] {p : α}
    {l : List α} (h : p ∉ l) : countOcc p l = 0 := by
  induction l with
  | nil => rfl
  | cons a as ih =>
    have ha : ¬(a = p) := fun hc => h (by simp [hc])
    simp [countOcc, ha, ih (fun hc => h (by simp [hc]))]

theorem mem_firstDedupAux {α : Type} [DecidableEq α] :
    ∀ (l seen : List α) (x : α),
      x ∈ firstDedupAux seen l ↔ x ∈ l ∧ x ∉ seen := by
  intro l
  induction l with
  | nil => intro seen x; simp [firstDedupAux]
  | cons a as ih =>
    intro seen x
    by_cases hmem : a ∈ seen
    · simp only [firstDedupAux, if_pos hmem, ih seen x]
      constructor
      · rintro ⟨hx, hns⟩; exact ⟨List.mem_cons_of_mem a hx, hns⟩
      · rintro ⟨hx, hns⟩
        rcases List.mem_cons.mp hx with rfl | hx2
        · exact absurd hmem hns
        · exact ⟨hx2, hns⟩
    · simp only [firstDedupAux, if_neg hmem, List.mem_cons, ih (a :: seen) x]
      constructor
      · rintro (rfl | ⟨hx, hns⟩)
        · exact ⟨Or.inl rfl, hmem⟩
        · refine ⟨Or.inr hx, ?_⟩
          intro hc
          exact hns (Or.inr hc)
      · rintro ⟨rfl | hx, hns⟩
        · exact Or.inl rfl
        · by_cases hxa : x = a
          · exact Or.inl hxa
          · refine Or.inr ⟨hx, ?_⟩
            rintro (h | h)
            · exact hxa h
            · exact hns h

theorem mem_firstDedup {α : Type} [DecidableEq α] (l : List α) (x : α) :
    x ∈ firstDedup l ↔ x ∈ l := by
  simp [firstDedup, mem_firstDedupAux]

theorem firstDedupAux_snoc {α : Type} [DecidableEq α] :
    ∀ (l seen : List α) (p : α),
      firstDedupAux seen (l ++ [p]) =
        firstDedupAux seen l ++ (if p ∈ seen ∨ p ∈ l then [] else [p]) := by
  intro l
  induction l with
  | nil =>
    intro seen p
    by_cases hp : p ∈ seen <;> simp [firstDedupAux, hp]
  | cons a as ih =>
    intro seen p
    simp only [List.cons_append, firstDedupAux, List.append_eq]
    by_cases hmem : a ∈ seen
    · rw [if_pos hmem, if_pos hmem, ih seen p]
      have hcond : (p ∈ seen ∨ p ∈ as) ↔ (p ∈ seen ∨ p ∈ a :: as) := by
        constructor
        · rintro (h | h)
          · exact Or.inl h
          · exact Or.inr (List.mem_cons_of_mem a h)
        · rintro (h | h)
          · exact Or.inl h
          · rcases List.mem_cons.mp h with rfl | h2
            · exact Or.inl hmem
            · exact Or.inr h2
      rw [if_congr hcond rfl rfl]
    · rw [if_neg hmem, if_neg hmem, ih (a :: seen) p]
      have hcond : (p ∈ a :: seen ∨ p ∈ as) ↔ (p ∈ seen ∨ p ∈ a :: as) := by
        simp only [List.mem_cons]
        constructor
        · rintro ((rfl | h) | h)
          · exact Or.inr (Or.inl rfl)
          · exact Or.inl h
          · exact Or.inr (Or.inr h)
        · rintro (h | (rfl | h))
          · exact Or.inl (Or.inr h)
          · exact Or.inl (Or.inl rfl)
          · exact Or.inr h
      rw [if_congr hcond rfl rfl]
      simp [List.cons_append]

theorem firstDedup_snoc {α : Type} [DecidableEq α] (l : List α) (p : α) :
    firstDedup (l ++ [p]) =
      firstDedup l ++ (if p ∈ l then [] else [p]) := by
  unfold firstDedup
  rw [firstDedupAux_snoc]
  simp

theorem insertIncr_mem {α : Type} [DecidableEq α] :
    ∀ (D : List α) (c : α → Nat) (p : α), D.Nodup → p ∈ D →
      insertIncr (D.map fun q => (q, c q)) p
        = D.map (fun q => (q, c q + if q = p then 1 else 0)) := by
  intro D
  induction D with
  | nil => intro c p _ hp; cases hp
  | cons q D2 ih =>
    intro c p hnd hp
    obtain ⟨hq, hnd2⟩ := List.nodup_cons.mp hnd
    by_cases hqp : q = p
    · subst hqp
      have hmap : D2.map (fun x => (x, c x + if x = q then 1 else 0))
          = D2.map (fun x => (x, c x)) := by
        apply List.map_congr_left
        intro x hx
        have hxq : ¬(x = q) := fun hc => hq (hc ▸ hx)
        simp [hxq]
      simp [insertIncr, hmap]
    · have hp2 : p ∈ D2 := by
        rcases List.mem_cons.mp hp with h | h
        · exact absurd h.symm hqp
        · exact h
      simp [insertIncr, hqp, ih c p hnd2 hp2]

theorem insertIncr_new {α : Type} [DecidableEq α] :
    ∀ (D : List α) (c : α → Nat) (p : α), p ∉ D →
      insertIncr (D.map fun q => (q, c q)) p
        = (D.map fun q => (q, c q)) ++ [(p, 1)] := by
  intro D
  induction D with
  | nil => intro c p _; rfl
  | cons q D2 ih =>
    intro c p hp
    have hqp : ¬(q = p) := fun hc => hp (by simp [hc])
    simp [insertIncr, hqp, ih c p (fun hc => hp (by simp [hc]))]

theorem foldl_insertIncr_counts {α : Type} [DecidableEq α] (L : List α) :
    L.foldl insertIncr [] = (firstDedup L).map (fun p => (p, countOcc p L)) := by
  induction L using List.reverseRecOn with
  | nil => rfl
  | append_singleton L p ih =>
    rw [List.foldl_append, ih, List.foldl_cons, List.foldl_nil]
    by_cases hp : p ∈ L
    · have hpD : p ∈ firstDedup L := (mem_firstDedup L p).mpr hp
      rw [insertIncr_mem _ _ _ (firstDedup_nodup L) hpD, firstDedup_snoc]
      simp only [if_pos hp, List.append_nil]
      apply List.map_congr_left
      intro q hq
      rw [countOcc_append]
      by_cases hqp : q = p
      · subst hqp; simp [countOcc]
      · have hpq : ¬(p = q) := fun hc => hqp hc.symm
        simp [countOcc, hqp, hpq]
    · have hpD : p ∉ firstDedup L := fun hc => hp ((mem_firstDedup L p).mp hc)
      rw [insertIncr_new _ _ _ hpD, firstDedup_snoc]
      simp only [if_neg hp, List.map_append]
      congr 1
      · apply List.map_congr_left
        intro q hq
        have hqL : q ∈ L := (mem_firstDedup L q).mp hq
        have hqp : ¬(q = p) := fun hc => hp (hc ▸ hqL)
        have hpq : ¬(p = q) := fun hc => hqp hc.symm
        rw [countOcc_append]
        simp [countOcc, hpq]
      · simp [countOcc_append, countOcc, countOcc_eq_zero_of_not_mem hp]

theorem foldl_ite_filter {α β : Type} (g : Nat → α) (pred : α → Bool)
    (f : β → α → β) :
    ∀ (idxs : List Nat) (m : β),
      idxs.foldl (fun acc i => if pred (g i) then f acc (g i) else acc) m
        = ((idxs.map g).filter pred).foldl f m := by
  intro idxs
  induction idxs with
  | nil => intro m; rfl
  | cons i rest ih =>
    intro m
    by_cases hp : pred (g i)
    · simp [List.filter_cons, hp, ih]
    · simp [List.filter_cons, hp, ih]

/-! ## Claim C6: phrase-frequency extraction -/

/-- Claim C6, counterexample: on `a bc de fg hh` the extractor as the
claim describes it would return the two windows (the first has joined
length exactly 10, allowed by the claimed inclusive bounds; the second is
the final window), but the code rejects the length-10 window (strict
bound), never forms the final window (loop bound `words.length - 4`), and
therefore falls back to the fixed phrase list. -/
theorem c6_phrase_extraction_cx :
    commonPhrasesScript ("a bc de fg hh".data) = fallbackPhrases ∧
    specPhrasesClaim ("a bc de fg hh".data) =
      ["a bc de fg".data, "bc de fg hh".data] ∧
    commonPhrasesScript ("a bc de fg hh".data) ≠
      specPhrasesClaim ("a bc de fg hh".data) :=
  ⟨by decide, by decide, by decide⟩

/-- Claim C6 (amended): the phrase-frequency extractor of the script is
equivalent to the following description: split the text into words, form
the sliding windows starting at indices `0 … n − 5` (the window at the
final possible index is never formed), keep a window as a candidate
exactly when its lowercased joined length is strictly between 10 and 50,
count occurrences of each candidate, return the top 5 by descending count
with ties broken by first-seen order, and return a fixed fallback list
when no window qualifies. -/
theorem c6_phrase_extraction_refined (content : List Char) :
    commonPhrasesScript content = specPhrasesAmended content := by
  simp only [commonPhrasesScript, specPhrasesAmended, phraseMapScript]
  rw [foldl_ite_filter (windowPhrase (jsSplitWs content)) phraseLenOk insertIncr]
  rw [foldl_insertIncr_counts]

/-! ## Case-insensitivity lemmas for the word-hit counter (C7) -/

theorem ciStarts_lower_congr {t₁ t₂ : List Char}
    (h : t₁.map myToLower = t₂.map myToLower) (w : List Char) :
    ciStarts w t₁ = ciStarts w t₂ := by
  have htake : (t₁.take w.length).map myToLower = (t₂.take w.length).map myToLower := by
    rw [List.map_take, List.map_take, h]
  simp [ciStarts, htake]

theorem boundAfter_lower_congr {t₁ t₂ : List Char}
    (h : t₁.map myToLower = t₂.map myToLower) (n : Nat) :
    boundAfter t₁ n = boundAfter t₂ n := by
  have hd : (t₁.drop n).map myToLower = (t₂.drop n).map myToLower := by
    rw [List.map_drop, List.map_drop, h]
  cases h1 : t₁.drop n with
  | nil =>
    cases h2 : t₂.drop n with
    | nil => simp [boundAfter, h1, h2]
    | cons b bs => rw [h1, h2] at hd; simp at hd
  | cons a as =>
    cases h2 : t₂.drop n with
    | nil => rw [h1, h2] at hd; simp at hd
    | cons b bs =>
      rw [h1, h2] at hd
      simp only [List.map_cons, List.cons.injEq] at hd
      simp [boundAfter, h1, h2, isWordChar, hd.1]

theorem tryWordsWL_lower_congr {t₁ t₂ : List Char}
    (h : t₁.map myToLower = t₂.map myToLower) (wl : List (List Char)) :
    tryWordsWL wl t₁ = tryWordsWL wl t₂ := by
  induction wl with
  | nil => rfl
  | cons w rest ih =>
    simp only [tryWordsWL, ciStarts_lower_congr h w, boundAfter_lower_congr h
      w.length, ih]

theorem countWLAux_lower_congr (wl : List (List Char)) :
    ∀ (fuel : Nat) (prevW : Bool) (t₁ t₂ : List Char),
      t₁.map myToLower = t₂.map myToLower →
      countWLAux wl fuel prevW t₁ = countWLAux wl fuel prevW t₂ := by
  intro fuel
  induction fuel with
  | zero => intro prevW t₁ t₂ _; rfl
  | succ fuel ih =>
    intro prevW t₁ t₂ h
    cases t₁ with
    | nil =>
      cases t₂ with
      | nil => rfl
      | cons b bs => simp at h
    | cons a as =>
      cases t₂ with
      | nil => simp at h
      | cons b bs =>
        have hab : myToLower a = myToLower b := by
          simpa using congrArg List.head? h
        have htail : as.map myToLower = bs.map myToLower := by
          simpa using congrArg List.tail h
        have htw : tryWordsWL wl (a :: as) = tryWordsWL wl (b :: bs) :=
          tryWordsWL_lower_congr h wl
        have hwc : isWordChar a = isWordChar b := by
          simp [isWordChar, hab]
        cases hpw : prevW with
        | true => simp only [countWLAux, if_pos rfl, hwc]; exact ih _ as bs htail
        | false =>
          simp only [countWLAux, Bool.false_eq_true, if_neg, not_false_eq_true,
            htw]
          cases hw : tryWordsWL wl (b :: bs) with
          | none => simp only [hwc]; exact ih _ as bs htail
          | some w =>
            have hdrop : ((a :: as).drop w.length).map myToLower =
                ((b :: bs).drop w.length).map myToLower := by
              rw [List.map_drop, List.map_drop, h]
            dsimp only
            congr 1
            exact ih _ _ _ hdrop

theorem countWordHits_map_lower (wl : List (List Char)) (t : List Char)
    (g : Char → Char) (h : ∀ c, myToLower (g c) = myToLower c) :
    countWordHits wl (t.map g) = countWordHits wl t := by
  unfold countWordHits
  rw [List.length_map]
  apply countWLAux_lower_congr
  rw [List.map_map]
  apply List.map_congr_left
  intro c _
  exact h c

/-! ## Claim C7: case-insensitive emotional-word counting -/

/-- Claim C7: the positive/negative word counts feeding the emotional
tone (the `\b(...)\b/gi` matches used by both `analyzeLanguagePatterns`
implementations) are case-insensitive: any per-character re-casing of the
text (any `g` with `myToLower ∘ g = myToLower`) leaves all four counts
unchanged, and the all-caps `AMAZING` is counted as a positive-word hit. -/
theorem c7_emotional_counts_case_insensitive :
    (∀ (t : List Char) (g : Char → Char), (∀ c, myToLower (g c) = myToLower c) →
      countWordHits libPositiveWords (t.map g) =
        countWordHits libPositiveWords t ∧
      countWordHits libNegativeWords (t.map g) =
        countWordHits libNegativeWords t ∧
      countWordHits scriptPositiveWords (t.map g) =
        countWordHits scriptPositiveWords t ∧
      countWordHits scriptNegativeWords (t.map g) =
        countWordHits scriptNegativeWords t) ∧
    countWordHits libPositiveWords ("This is AMAZING".data) = 1 ∧
    countWordHits scriptPositiveWords ("This is AMAZING".data) = 1 := by
  refine ⟨?_, by decide, by decide⟩
  intro t g h
  exact ⟨countWordHits_map_lower _ t g h, countWordHits_map_lower _ t g h,
    countWordHits_map_lower _ t g h, countWordHits_map_lower _ t g h⟩

/-- A re-casing that capitalises every `a`. -/
def capA (c : Char) : Char := if c = 'a' then 'A' else c

theorem capA_lower (c : Char) : myToLower (capA c) = myToLower c := by
  by_cases hc : c = 'a'
  · subst hc; decide
  · simp [capA, hc]

/-- Concrete instance of C7: capitalising the letter `a` everywhere does
not change any of the four emotional-word counts of `amazing great day`. -/
theorem c7_emotional_counts_sample :
    countWordHits libPositiveWords (("amazing great day".data).map capA) =
      countWordHits libPositiveWords ("amazing great day".data) ∧
    countWordHits libNegativeWords (("amazing great day".data).map capA) =
      countWordHits libNegativeWords ("amazing great day".data) ∧
    countWordHits scriptPositiveWords (("amazing great day".data).map capA) =
      countWordHits scriptPositiveWords ("amazing great day".data) ∧
    countWordHits scriptNegativeWords (("amazing great day".data).map capA) =
      countWordHits scriptNegativeWords ("amazing great day".data) :=
  c7_emotional_counts_case_insensitive.1 ("amazing great day".data) capA capA_lower

/-! ## Data model (src/types/index.ts) -/

/-- The `Post`: `author` and `categories` are optional in the source. -/
structure Post where
  id : String
  title : String
  content : String
  cleanContent : String
  pubDate : String
  link : String
  author : Option String
  categories : Option (List String)
deriving Repr, DecidableEq

structure Positioning where
  archetype : String
  authority : Int
  relatability : Int
  expertise : Int
  description : String
deriving Repr, DecidableEq

structure ToneInfo where
  primary : String
  secondary : List String
  emotionalRange : String
deriving Repr, DecidableEq

structure BrandProfile where
  positioning : Positioning
  tone : ToneInfo
  uniqueValue : String
deriving Repr, DecidableEq

structure TransformationNarrative where
  beforeState : String
  afterState : String
  journey : List String
  promises : List String
  evidence : List String
deriving Repr, DecidableEq

structure MissionVision where
  mission : String
  vision : String
  values : List String
  beliefs : List String
  goals : List String
deriving Repr, DecidableEq

structure NeuropsychAnalysis where
  influencerId : String
  analyzedAt : String
  posts : List Post
  brandProfile : BrandProfile
  languagePatterns : LanguagePatterns
  psychologicalTriggers : List PsychologicalTrigger
  transformationNarrative : TransformationNarrative
  missionVision : MissionVision
  overallAssessment : String
deriving Repr, DecidableEq

/-! ## Brand profile: model path, default, and configuration table -/

/-- The `getDefaultBrandProfile` of `neuropsych-analyzer.ts` (lines 275–291). -/
def getDefaultBrandProfile : BrandProfile :=
  { positioning :=
      { archetype := "Creator", authority := 75, relatability := 80,
        expertise := 85,
        description := "A thought leader sharing practical insights from experience" }
    tone :=
      { primary := "Conversational", secondary := ["Inspiring", "Educational"],
        emotionalRange := "Balanced with optimistic lean" }
    uniqueValue :=
      "Bridging the gap between theory and practice with real-world examples" }

/-- The JSON object parsed from the model reply in `analyzeBrandProfile`;
every field may be absent, and numeric fields are unvalidated. -/
structure BrandResult where
  archetype : Option String
  authority : Option Int
  relatability : Option Int
  expertise : Option Int
  description : Option String
  primaryTone : Option String
  secondaryTones : Option (List String)
  emotionalRange : Option String
  uniqueValue : Option String
deriving Repr, DecidableEq

/-- JS `x || d` for a parsed number: absent or `0` is falsy. -/
def jsOrInt (v : Option Int) (d : Int) : Int :=
  match v with
  | none => d
  | some n => if n = 0 then d else n

/-- JS `x || d` for a parsed string: absent or empty is falsy. -/
def jsOrStr (v : Option String) (d : String) : String :=
  match v with
  | none => d
  | some s => if s = "" then d else s

/-- JS `x || d` for a parsed array (an empty array is truthy). -/
def jsOrArr (v : Option (List String)) (d : List String) : List String :=
  v.getD d

/-- The profile assembled from a parsed model reply
(`neuropsych-analyzer.ts` lines 93–107). -/
def mkBrandProfileFromResult (r : BrandResult) : BrandProfile :=
  { positioning :=
      { archetype := jsOrStr r.archetype "Creator"
        authority := jsOrInt r.authority 75
        relatability := jsOrInt r.relatability 80
        expertise := jsOrInt r.expertise 85
        description := jsOrStr r.description "A thought leader sharing insights" }
    tone :=
      { primary := jsOrStr r.primaryTone "Conversational"
        secondary := jsOrArr r.secondaryTones ["Inspiring", "Educational"]
        emotionalRange := jsOrStr r.emotionalRange "Balanced" }
    uniqueValue :=
      jsOrStr r.uniqueValue "Practical insights from real experience" }

/-- The `analyzeBrandProfile`: without a key the default is returned before the
model call; with a key the parsed reply (`oracle`) is used, and any thrown
error is caught and replaced by the default. -/
def analyzeBrandProfileM (apiKey : Option String)
    (oracle : Except String BrandResult) : BrandProfile :=
  match apiKey with
  | none => getDefaultBrandProfile
  | some _ =>
    match oracle with
    | Except.ok r => mkBrandProfileFromResult r
    | Except.error _ => getDefaultBrandProfile

/-- The `AnalysisConfig` of `analyze-posts.ts` (lines 5–17). -/
structure AnalysisConfig where
  name : String
  slug : String
  archetype : String
  authority : Int
  relatability : Int
  expertise : Int
  primaryTone : String
  secondaryTones : List String
  uniqueValue : String
  mission : String
  vision : String
deriving Repr, DecidableEq

def gregConfig : AnalysisConfig :=
  { name := "Greg Isenberg", slug := "greg-isenberg",
    archetype := "The Creator-Sage Hybrid",
    authority := 85, relatability := 78, expertise := 90,
    primaryTone := "Conversational yet Authoritative",
    secondaryTones := ["Analytical", "Playful", "Forward-thinking"],
    uniqueValue :=
      "Bridging the gap between internet culture trends and practical business opportunities",
    mission := "To democratize knowledge of building internet-native businesses",
    vision :=
      "A world where anyone can build successful online businesses by understanding internet culture" }

def danConfig : AnalysisConfig :=
  { name := "Dan Koe", slug := "dan-koe",
    archetype := "The Philosopher-King",
    authority := 92, relatability := 72, expertise := 88,
    primaryTone := "Philosophical and Contemplative",
    secondaryTones := ["Motivational", "Systematic", "Introspective"],
    uniqueValue := "Combining philosophy, spirituality, and business strategy",
    mission := "To awaken creators to their potential through focus and philosophy",
    vision :=
      "A world where individuals create their own reality through conscious business" }

def justinConfig : AnalysisConfig :=
  { name := "Justin Welsh", slug := "justin-welsh",
    archetype := "The Systematic Teacher",
    authority := 88, relatability := 85, expertise := 93,
    primaryTone := "Educational and Actionable",
    secondaryTones := ["Encouraging", "Transparent", "Data-driven"],
    uniqueValue :=
      "Step-by-step systems that anyone can follow to build a one-person business",
    mission := "To help solopreneurs build profitable one-person businesses",
    vision :=
      "A world where anyone can achieve financial freedom through solopreneurship" }

/-- The per-subject configuration table of `analyze-posts.ts`. -/
def influencerConfigs : List AnalysisConfig := [gregConfig, danConfig, justinConfig]

def lowerStr (s : String) : String := String.mk (s.data.map myToLower)

/-- The `BrandProfile` assembled from a configuration entry by
`analyzeInfluencer` (`analyze-posts.ts` lines 174–188). -/
def brandProfileOfConfig (cfg : AnalysisConfig) : BrandProfile :=
  { positioning :=
      { archetype := cfg.archetype
        authority := cfg.authority
        relatability := cfg.relatability
        expertise := cfg.expertise
        description := cfg.name ++ " positions as " ++ lowerStr cfg.archetype ++
          ", " ++ lowerStr cfg.uniqueValue }
    tone :=
      { primary := cfg.primaryTone
        secondary := cfg.secondaryTones
        emotionalRange := "Balanced with strategic emotional peaks" }
    uniqueValue := cfg.uniqueValue }

/-! ## Report assembler: `analyzeNeuropsychology` -/

/-- The `analyzeTransformationNarrative` computes two unused match lists and
returns this fixed record (lines 212–243). -/
def libTransformationNarrative : TransformationNarrative :=
  { beforeState := "Struggling with traditional approaches"
    afterState := "Achieving success through innovative methods"
    journey :=
      ["Recognized the problem", "Experimented with solutions",
       "Found breakthrough approach", "Scaled and systematized",
       "Sharing knowledge with others"]
    promises :=
      ["Learn from real experience", "Avoid common mistakes",
       "Accelerate your growth", "Build sustainable success"]
    evidence :=
      ["Personal case studies", "Client success stories", "Data and metrics",
       "Industry recognition"] }

/-- The `analyzeMissionVision` (lines 245–269). -/
def libMissionVision : MissionVision :=
  { mission :=
      "To share practical insights that help entrepreneurs and creators build successful businesses"
    vision :=
      "A world where everyone has access to the knowledge and tools needed to create value"
    values :=
      ["Transparency", "Continuous Learning", "Community", "Innovation",
       "Practical Application"]
    beliefs :=
      ["Success comes from consistent action",
       "Learning from others accelerates growth",
       "Building in public creates accountability",
       "Small experiments lead to big breakthroughs"]
    goals :=
      ["Educate and inspire creators", "Build a supportive community",
       "Share actionable strategies", "Document the journey"] }

/-- The `generateOverallAssessment` (lines 271–273). -/
def libOverallAssessment : String :=
  "This influencer demonstrates a strong command of neuropsychological branding principles. Their content consistently employs authority-building language while maintaining relatability through personal storytelling. The transformation narrative is clear and compelling, moving from struggle to success through systematic experimentation. Key psychological triggers including social proof and FOMO are strategically deployed without being overwhelming. The overall brand positioning balances expertise with accessibility, making complex topics digestible for the target audience."

/-- Join with a multi-character separator, as `Array.prototype.join`. -/
def joinSepList (sep : List Char) : List (List Char) → List Char
  | [] => []
  | [s] => s
  | s :: rest => s ++ sep ++ joinSepList sep rest

/-- Join the clean contents with blank lines (line 26 of the analyzer). -/
def combinedContent (posts : List Post) : List Char :=
  joinSepList ("\n\n".data) (posts.map (fun p => p.cleanContent.data))

/-- The `getDefaultAnalysis` (lines 293–324). -/
def getDefaultAnalysis (now influencerId : String) (posts : List Post) :
    NeuropsychAnalysis :=
  { influencerId := influencerId
    analyzedAt := now
    posts := posts
    brandProfile := getDefaultBrandProfile
    languagePatterns :=
      { commonPhrases := []
        vocabularyComplexity := "moderate"
        sentenceStructure := "Varied"
        rhetoricalDevices := ["Storytelling"]
        powerWords := []
        emotionalTone := { positive := 60, negative := 10, neutral := 30 } }
    psychologicalTriggers := []
    transformationNarrative :=
      { beforeState := "Starting point", afterState := "Success achieved",
        journey := ["Discovery", "Learning", "Application"],
        promises := ["Growth", "Success"],
        evidence := ["Results", "Testimonials"] }
    missionVision :=
      { mission := "To educate and inspire", vision := "A better future",
        values := ["Innovation", "Community"],
        beliefs := ["Continuous improvement"], goals := ["Impact", "Growth"] }
    overallAssessment := "Analysis pending" }

/-- The `try` block of `analyzeNeuropsychology` (lines 28–55): the brand
profile may consult the model (`oracle`), every other analyzer is a pure
function of the combined content, and nothing can throw, so the block
always produces a report. -/
def analyzeNeuropsychologyTry (apiKey : Option String)
    (oracle : Except String BrandResult) (now influencerId : String)
    (posts : List Post) : Except String NeuropsychAnalysis :=
  Except.ok
    { influencerId := influencerId
      analyzedAt := now
      posts := posts
      brandProfile := analyzeBrandProfileM apiKey oracle
      languagePatterns := analyzeLanguagePatternsLibC (combinedContent posts)
      psychologicalTriggers := analyzePsychologicalTriggersC (combinedContent posts)
      transformationNarrative := libTransformationNarrative
      missionVision := libMissionVision
      overallAssessment := libOverallAssessment }

/-- The `analyzeNeuropsychology` with its catch clause (lines 56–60). -/
def analyzeNeuropsychology (apiKey : Option String)
    (oracle : Except String BrandResult) (now influencerId : String)
    (posts : List Post) : NeuropsychAnalysis :=
  match analyzeNeuropsychologyTry apiKey oracle now influencerId posts with
  | Except.ok a => a
  | Except.error _ => getDefaultAnalysis now influencerId posts

/-! ## Claim C3: fallback guarantee -/

/-- Claim C3: with the model credential absent, `analyzeNeuropsychology`
returns (never throws) a report in which every field is populated: the
`try` block succeeds with the heuristic default brand profile, the pure
language/trigger analyses of the combined content, the fixed narrative,
mission/vision and assessment constants, and the given id, timestamp and
posts; the wrapper returns exactly that report. -/
theorem c3_fallback_guarantee (oracle : Except String BrandResult)
    (now influencerId : String) (posts : List Post) :
    analyzeNeuropsychologyTry none oracle now influencerId posts =
      Except.ok
        { influencerId := influencerId
          analyzedAt := now
          posts := posts
          brandProfile := getDefaultBrandProfile
          languagePatterns := analyzeLanguagePatternsLibC (combinedContent posts)
          psychologicalTriggers :=
            analyzePsychologicalTriggersC (combinedContent posts)
          transformationNarrative := libTransformationNarrative
          missionVision := libMissionVision
          overallAssessment := libOverallAssessment } ∧
    analyzeNeuropsychology none oracle now influencerId posts =
      { influencerId := influencerId
        analyzedAt := now
        posts := posts
        brandProfile := getDefaultBrandProfile
        languagePatterns := analyzeLanguagePatternsLibC (combinedContent posts)
        psychologicalTriggers :=
          analyzePsychologicalTriggersC (combinedContent posts)
        transformationNarrative := libTransformationNarrative
        missionVision := libMissionVision
        overallAssessment := libOverallAssessment } :=
  ⟨rfl, rfl⟩

/-! ## Claim C8: score-range invariant -/

/-- Integer scores of a brand profile lie in `[0, 100]`. -/
abbrev scoresInRange (bp : BrandProfile) : Prop :=
  0 ≤ bp.positioning.authority ∧ bp.positioning.authority ≤ 100 ∧
  0 ≤ bp.positioning.relatability ∧ bp.positioning.relatability ≤ 100 ∧
  0 ≤ bp.positioning.expertise ∧ bp.positioning.expertise ≤ 100

/-- An optionally provided model score is absent or in `[0, 100]`. -/
def optScoreOk (v : Option Int) : Bool :=
  match v with
  | none => true
  | some n => 0 ≤ n && n ≤ 100

/-- A model reply whose authority score is out of range. -/
def badBrandResult : BrandResult :=
  { archetype := none, authority := some 150, relatability := none,
    expertise := none, description := none, primaryTone := none,
    secondaryTones := none, emotionalRange := none, uniqueValue := none }

/-- Claim C8, counterexample: the model-backed path performs no
validation or clamping — a parsed reply with `authority: 150` flows into
the produced `BrandProfile` unchanged, violating the `[0, 100]` range. -/
theorem c8_scores_cx :
    (mkBrandProfileFromResult badBrandResult).positioning.authority = 150 ∧
    ¬ scoresInRange (mkBrandProfileFromResult badBrandResult) :=
  ⟨rfl, by decide⟩

theorem jsOrInt_in_range (v : Option Int) (d : Int) (hd : 0 ≤ d ∧ d ≤ 100)
    (hv : optScoreOk v = true) : 0 ≤ jsOrInt v d ∧ jsOrInt v d ≤ 100 := by
  cases v with
  | none => simpa [jsOrInt] using hd
  | some n =>
    simp only [optScoreOk, Bool.and_eq_true, decide_eq_true_eq] at hv
    by_cases hn : n = 0
    · simpa [jsOrInt, hn] using hd
    · simpa [jsOrInt, hn] using hv

/-- Claim C8 (amended): the heuristic default profile and every entry of
the per-subject configuration table have authority / relatability /
expertise scores in `[0, 100]`; the model-backed path keeps its scores in
`[0, 100]` exactly under the assumption that every score the parsed model
reply provides is itself in range (absent or falsy scores fall back to
in-range defaults) — the code performs no validation of its own. -/
theorem c8_score_range :
    scoresInRange getDefaultBrandProfile ∧
    (∀ cfg ∈ influencerConfigs, scoresInRange (brandProfileOfConfig cfg)) ∧
    (∀ r : BrandResult, optScoreOk r.authority = true →
      optScoreOk r.relatability = true → optScoreOk r.expertise = true →
      scoresInRange (mkBrandProfileFromResult r)) := by
  refine ⟨by decide, ?_, ?_⟩
  · intro cfg hcfg
    simp only [influencerConfigs, List.mem_cons, List.mem_singleton,
      List.not_mem_nil, or_false] at hcfg
    rcases hcfg with rfl | rfl | rfl <;> decide
  · intro r h1 h2 h3
    obtain ⟨ha1, ha2⟩ := jsOrInt_in_range r.authority 75 (by decide) h1
    obtain ⟨hr1, hr2⟩ := jsOrInt_in_range r.relatability 80 (by decide) h2
    obtain ⟨he1, he2⟩ := jsOrInt_in_range r.expertise 85 (by decide) h3
    exact ⟨ha1, ha2, hr1, hr2, he1, he2⟩

/-- A model reply with all scores provided and in range (one of them
falsy). -/
def goodBrandResult : BrandResult :=
  { archetype := some "Sage", authority := some 90, relatability := some 0,
    expertise := none, description := none, primaryTone := none,
    secondaryTones := none, emotionalRange := none, uniqueValue := none }

/-- Concrete instance of the amended C8 theorem. -/
theorem c8_score_range_sample :
    scoresInRange (brandProfileOfConfig gregConfig) ∧
    scoresInRange (mkBrandProfileFromResult goodBrandResult) :=
  ⟨c8_score_range.2.1 gregConfig (by simp [influencerConfigs]),
   c8_score_range.2.2 goodBrandResult (by decide) (by decide) (by decide)⟩

/-! ## Persistence: roster and analyses (src/lib/data-manager.ts) -/

/-- The `Influencer` of `src/types/index.ts`. -/
structure Influencer where
  id : String
  name : String
  slug : String
  substackUrl : String
  rssUrl : String
  description : String
  lastAnalyzed : Option String
  postCount : Option Nat
deriving Repr, DecidableEq

/-- JS `Array.prototype.findIndex`, with `-1` modelled as `none`. -/
def findIdxOpt {α : Type} (p : α → Bool) : List α → Option Nat
  | [] => none
  | a :: as => if p a then some 0 else (findIdxOpt p as).map (· + 1)

/-- The `saveInfluencer` (`data-manager.ts` lines 341–354) on the roster
array: replace in place when the id already occurs, else push. -/
def saveInfluencer (inf : Influencer) (roster : List Influencer) :
    List Influencer :=
  match findIdxOpt (fun i => i.id == inf.id) roster with
  | some idx => roster.set idx inf
  | none => roster ++ [inf]

/-- The `saveAnalysis`: one analysis document per influencer id, overwritten
on re-analysis. -/
def saveAnalysis (analysis : NeuropsychAnalysis)
    (store : List (String × NeuropsychAnalysis)) :
    List (String × NeuropsychAnalysis) :=
  match findIdxOpt (fun e => e.1 == analysis.influencerId) store with
  | some idx => store.set idx (analysis.influencerId, analysis)
  | none => store ++ [(analysis.influencerId, analysis)]

/-! ## The analyze API route (src/app/api/analyze/route.ts) -/

/-- The persisted state the route reads and writes. -/
structure Store where
  influencers : List Influencer
  analyses : List (String × NeuropsychAnalysis)
deriving DecidableEq

/-- The parsed request body; absent fields are `none`. -/
structure AnalyzeRequest where
  name : Option String
  substackUrl : Option String
  description : Option String
deriving Repr, DecidableEq

/-- The JSON response with its HTTP status. -/
structure ApiResponse where
  status : Nat
  error : Option String
  success : Bool
  influencer : Option Influencer
  analysisId : Option String
deriving Repr, DecidableEq

/-- JS falsiness of an optional string field (`!name`). -/
def jsFalsy (o : Option String) : Bool :=
  match o with
  | none => true
  | some s => s == ""

/-- The `name.toLowerCase().replace(/\s+/g, '-')` (route line 20). -/
def slugOf (s : String) : String :=
  String.mk (compressRunsAux isWs '-' false (s.data.map myToLower))

/-- Case-sensitive suffix test. -/
def endsList (suffix t : List Char) : Bool :=
  litStarts suffix.reverse t.reverse

/-- Append the feed suffix unless the URL already ends with it (line 38). -/
def mkRssUrl (u : String) : String :=
  if endsList ("/feed".data) u.data then u else u ++ "/feed"

/-- The POST handler of `src/app/api/analyze/route.ts`: `fetched` stands
for the outcome of the feed fetch (`Except.error` when it throws, caught
by the catch clause of the route), `oracle` for the model reply. -/
def POSTanalyze (apiKey : Option String) (oracle : Except String BrandResult)
    (fetched : Except String (List Post)) (now : String)
    (req : AnalyzeRequest) (st : Store) : ApiResponse × Store :=
  if jsFalsy req.name || jsFalsy req.substackUrl then
    ({ status := 400, error := some "Name and Substack URL are required",
       success := false, influencer := none, analysisId := none }, st)
  else
    match fetched with
    | Except.error _ =>
      ({ status := 500, error := some "Failed to analyze influencer",
         success := false, influencer := none, analysisId := none }, st)
    | Except.ok posts =>
      let name := req.name.getD ""
      let substackUrl := req.substackUrl.getD ""
      let slug := slugOf name
      let cleanedPosts := posts.map
        (fun p => { p with cleanContent := cleanSubstackContent p.content })
      let influencer : Influencer :=
        { id := slug, name := name, slug := slug, substackUrl := substackUrl,
          rssUrl := mkRssUrl substackUrl,
          description := jsOrStr req.description
            ("Analysis of " ++ name ++ String.mk [apos] ++ "s content"),
          lastAnalyzed := some now, postCount := some cleanedPosts.length }
      let st1 : Store :=
        { st with influencers := saveInfluencer influencer st.influencers }
      let analysis := analyzeNeuropsychology apiKey oracle now slug cleanedPosts
      let st2 : Store := { st1 with analyses := saveAnalysis analysis st1.analyses }
      ({ status := 200, error := none, success := true,
         influencer := some influencer, analysisId := some slug }, st2)

/-! ## Claim C9: validation failure behaviour -/

/-- Claim C9: when the name or the feed URL is missing (or empty, which
JS treats the same), the route returns status 400 with an error payload
and performs no writes — the persisted state is returned unchanged. -/
theorem c9_validation_failure (apiKey : Option String)
    (oracle : Except String BrandResult) (fetched : Except String (List Post))
    (now : String) (req : AnalyzeRequest) (st : Store)
    (h : jsFalsy req.name = true ∨ jsFalsy req.substackUrl = true) :
    (POSTanalyze apiKey oracle fetched now req st).1.status = 400 ∧
    (POSTanalyze apiKey oracle fetched now req st).1.error.isSome = true ∧
    (POSTanalyze apiKey oracle fetched now req st).1.success = false ∧
    (POSTanalyze apiKey oracle fetched now req st).2 = st := by
  have hcond : (jsFalsy req.name || jsFalsy req.substackUrl) = true := by
    rcases h with h | h <;> simp [h]
  unfold POSTanalyze
  rw [if_pos hcond]
  exact ⟨rfl, rfl, rfl, rfl⟩

/-- Concrete instance of C9: a request with no name is rejected with 400
and the empty store is untouched. -/
theorem c9_validation_failure_sample :
    (POSTanalyze none (Except.error "no key") (Except.ok []) "2024-01-01"
      { name := none, substackUrl := some "https://example.substack.com",
        description := none } { influencers := [], analyses := [] }).1.status
      = 400 ∧
    (POSTanalyze none (Except.error "no key") (Except.ok []) "2024-01-01"
      { name := none, substackUrl := some "https://example.substack.com",
        description := none } { influencers := [], analyses := [] }).2
      = { influencers := [], analyses := [] } := by
  have h := c9_validation_failure none (Except.error "no key") (Except.ok [])
    "2024-01-01"
    { name := none, substackUrl := some "https://example.substack.com",
      description := none } { influencers := [], analyses := [] }
    (Or.inl (by decide))
  exact ⟨h.1, h.2.2.2⟩

/-! ## Claim C10: roster uniqueness under saveInfluencer -/

theorem findIdxOpt_some_spec {α : Type} (p : α → Bool) :
    ∀ (l : List α) (i : Nat), findIdxOpt p l = some i →
      i < l.length ∧ ∃ x, l[i]? = some x ∧ p x = true := by
  intro l
  induction l with
  | nil => intro i h; simp [findIdxOpt] at h
  | cons a as ih =>
    intro i h
    by_cases hp : p a
    · simp only [findIdxOpt, if_pos hp, Option.some.injEq] at h
      subst h
      exact ⟨by simp, a, by simp, hp⟩
    · simp only [findIdxOpt, if_neg hp, Option.map_eq_some'] at h
      obtain ⟨j, hj, hji⟩ := h
      obtain ⟨hlen, x, hx, hpx⟩ := ih j hj
      subst hji
      refine ⟨by simpa using hlen, x, ?_, hpx⟩
      simpa using hx

theorem findIdxOpt_none_spec {α : Type} (p : α → Bool) :
    ∀ (l : List α), findIdxOpt p l = none → ∀ x ∈ l, p x = false := by
  intro l
  induction l with
  | nil => intro _ x hx; cases hx
  | cons a as ih =>
    intro h x hx
    by_cases hp : p a
    · simp [findIdxOpt, hp] at h
    · simp only [findIdxOpt, if_neg hp, Option.map_eq_none'] at h
      rcases List.mem_cons.mp hx with rfl | hx2
      · simpa using hp
      · exact ih h x hx2

theorem findIdxOpt_none_of_all {α : Type} (p : α → Bool) :
    ∀ (l : List α), (∀ x ∈ l, p x = false) → findIdxOpt p l = none := by
  intro l
  induction l with
  | nil => intro _; rfl
  | cons a as ih =>
    intro h
    have ha : p a = false := h a (by simp)
    simp only [findIdxOpt, ha, Bool.false_eq_true, if_neg, not_false_eq_true]
    rw [ih (fun x hx => h x (List.mem_cons_of_mem a hx))]
    rfl

/-- Claim C10: `saveInfluencer` preserves pairwise-distinct ids; when the
id is already present at (first) index `idx` it replaces exactly that
record in place, leaving the length and every other position unchanged;
when the id is new it appends the record at the end. -/
theorem c10_save_influencer_uniqueness :
    ∀ (inf : Influencer) (roster : List Influencer),
      ((roster.map Influencer.id).Nodup →
        ((saveInfluencer inf roster).map Influencer.id).Nodup) ∧
      (∀ idx, findIdxOpt (fun i => i.id == inf.id) roster = some idx →
        saveInfluencer inf roster = roster.set idx inf ∧
        (saveInfluencer inf roster).length = roster.length ∧
        (saveInfluencer inf roster)[idx]? = some inf ∧
        ∀ j, j ≠ idx → (saveInfluencer inf roster)[j]? = roster[j]?) ∧
      ((∀ r ∈ roster, r.id ≠ inf.id) →
        saveInfluencer inf roster = roster ++ [inf]) := by
  intro inf roster
  refine ⟨?_, ?_, ?_⟩
  · intro hnd
    cases hfind : findIdxOpt (fun i => i.id == inf.id) roster with
    | some idx =>
      obtain ⟨hlen, x, hx, hpx⟩ := findIdxOpt_some_spec _ roster idx hfind
      have hxid : x.id = inf.id := by simpa using hpx
      have hids : (roster.set idx inf).map Influencer.id =
          roster.map Influencer.id := by
        apply List.ext_getElem?
        intro n
        rw [List.getElem?_map, List.getElem?_map, List.getElem?_set]
        by_cases hn : idx = n
        · subst hn
          rw [if_pos rfl, if_pos hlen, hx]
          simp [hxid]
        · rw [if_neg hn]
      unfold saveInfluencer
      rw [hfind]
      rw [hids]
      exact hnd
    | none =>
      have hall := findIdxOpt_none_spec _ roster hfind
      unfold saveInfluencer
      rw [hfind, List.map_append]
      rw [List.nodup_append]
      refine ⟨hnd, by simp, ?_⟩
      intro a ha hb
      simp only [List.map_cons, List.map_nil, List.mem_singleton] at hb
      obtain ⟨r, hr, hrid⟩ := List.mem_map.mp ha
      have := hall r hr
      rw [hb] at hrid
      simp [hrid] at this
  · intro idx hfind
    obtain ⟨hlen, x, hx, hpx⟩ := findIdxOpt_some_spec _ roster idx hfind
    have hsave : saveInfluencer inf roster = roster.set idx inf := by
      unfold saveInfluencer
      rw [hfind]
    refine ⟨hsave, by rw [hsave, List.length_set], ?_, ?_⟩
    · rw [hsave, List.getElem?_set, if_pos rfl, if_pos hlen]
    · intro j hj
      rw [hsave, List.getElem?_set, if_neg (fun hc => hj hc.symm)]
  · intro hnew
    have hfind : findIdxOpt (fun i => i.id == inf.id) roster = none := by
      apply findIdxOpt_none_of_all
      intro x hx
      simpa using hnew x hx
    unfold saveInfluencer
    rw [hfind]

/-- Two concrete roster records, an update for the second, and a record
with a fresh id. -/
def infA : Influencer :=
  { id := "alice", name := "Alice", slug := "alice",
    substackUrl := "https://alice.substack.com",
    rssUrl := "https://alice.substack.com/feed", description := "a",
    lastAnalyzed := none, postCount := none }

def infB : Influencer :=
  { id := "bob", name := "Bob", slug := "bob",
    substackUrl := "https://bob.substack.com",
    rssUrl := "https://bob.substack.com/feed", description := "b",
    lastAnalyzed := none, postCount := none }

def updB : Influencer :=
  { id := "bob", name := "Bobby", slug := "bob",
    substackUrl := "https://bob.substack.com",
    rssUrl := "https://bob.substack.com/feed", description := "updated",
    lastAnalyzed := some "2024-01-01", postCount := some 3 }

def infC : Influencer :=
  { id := "carol", name := "Carol", slug := "carol",
    substackUrl := "https://carol.substack.com",
    rssUrl := "https://carol.substack.com/feed", description := "c",
    lastAnalyzed := none, postCount := none }

/-- Concrete instance of C10: updating `bob` replaces position 1 in place
and keeps ids distinct; saving `carol` appends. -/
theorem c10_save_influencer_sample :
    ((saveInfluencer updB [infA, infB]).map Influencer.id).Nodup ∧
    saveInfluencer updB [infA, infB] = [infA, infB].set 1 updB ∧
    saveInfluencer infC [infA, infB] = [infA, infB] ++ [infC] :=
  ⟨(c10_save_influencer_uniqueness updB [infA, infB]).1 (by decide),
   ((c10_save_influencer_uniqueness updB [infA, infB]).2.1 1 (by decide)).1,
   (c10_save_influencer_uniqueness infC [infA, infB]).2.2 (by decide)⟩
